import Mathlib

/-!
# FhatalX dashboard: movers ranking, idea screens, favorites, news and refresh

A shallow embedding of `src/assets/js/analytics.js`.

* Numbers are exact rationals (`ℚ`); `null` and `undefined` are `none`.
* `Array.prototype.sort(cmp)` is stable and, for a consistent comparator, returns the
  unique stable sorted arrangement; it is embedded as a stable insertion sort.
* The DOM containers (`els.*`) are explicit state whose contents are the data the HTML
  templates are instantiated with.
* `String.prototype.toLowerCase` is a parameter `toLowerCase` of the definitions using it.
-/

namespace FhatalX

/-! ## Data model -/

/-- Coin row of the market listing (the fields `analytics.js` reads). -/
structure Coin where
  id : String
  symbol : String
  name : String
  image : String
  market_cap_rank : Option ℕ
  current_price : ℚ
  price_change_percentage_24h : Option ℚ
  price_change_percentage_1h_in_currency : Option ℚ
  price_change_percentage_7d_in_currency : Option ℚ
  price_change_percentage_7d : Option ℚ
  deriving DecidableEq

/-- JavaScript `v || d` on a nullable number: `null`, `undefined` and `0` are falsy. -/
def orElse (v : Option ℚ) (d : ℚ) : ℚ :=
  match v with
  | none => d
  | some x => if x = 0 then d else x

/-- JavaScript `v ?? d` on a nullable number: only `null` and `undefined` give `d`. -/
def nullish (v : Option ℚ) (d : ℚ) : ℚ :=
  match v with
  | none => d
  | some x => x

/-- `Array.prototype.sort(cmp)`: stable; `a` stays ahead of `b` when `cmp a b ≤ 0`. -/
def jsSort {α : Type} (cmp : α → α → ℚ) (l : List α) : List α :=
  l.insertionSort (fun a b => cmp a b ≤ 0)

/-- Comparator of line 153: `(b.pc24 || -1) - (a.pc24 || -1)`. -/
def cmpUp (a b : Coin) : ℚ :=
  orElse b.price_change_percentage_24h (-1) - orElse a.price_change_percentage_24h (-1)

/-- Comparator of line 154: `(a.pc24 || 1) - (b.pc24 || 1)`. -/
def cmpDown (a b : Coin) : ℚ :=
  orElse a.price_change_percentage_24h 1 - orElse b.price_change_percentage_24h 1

/-- Full gainers ranking of `renderMovers`: `[...state.filtered].sort(...)` of line 153. -/
def rankUp (filtered : List Coin) : List Coin := jsSort cmpUp filtered

/-- Full losers ranking of `renderMovers`: `[...state.filtered].sort(...)` of line 154. -/
def rankDown (filtered : List Coin) : List Coin := jsSort cmpDown filtered

/-- The list `topUp` of `renderMovers`: `.slice(0, 5)` of the gainers ranking. -/
def topUp (filtered : List Coin) : List Coin := (rankUp filtered).take 5

/-- The list `topDown` of `renderMovers`: `.slice(0, 5)` of the losers ranking. -/
def topDown (filtered : List Coin) : List Coin := (rankDown filtered).take 5

/-! ## Idea screens (`renderIdeas`, lines 211-220) -/

/-- The helper `pos` of `renderIdeas`: `v !== null && v !== undefined && v > 0`. -/
def pos (v : Option ℚ) : Bool :=
  match v with
  | none => false
  | some x => decide (x > 0)

/-- The helper `neg` of `renderIdeas`: `v !== null && v !== undefined && v < 0`. -/
def neg (v : Option ℚ) : Bool :=
  match v with
  | none => false
  | some x => decide (x < 0)

/-- The set `binanceSet` of `renderIdeas`: `state.binanceTradable || new Set()`; a `Set`
object is truthy even when empty, so only `null` is replaced. -/
def binanceSet (binanceTradable : Option (List String)) : List String :=
  match binanceTradable with
  | none => []
  | some s => s

/-- The helper `onBinance`: `binanceSet.has((x.symbol || '').toLowerCase())`; on a string
`s || ''` is `s` itself (the only falsy string is `''`). -/
def onBinance (toLowerCase : String → String) (binanceTradable : Option (List String))
    (x : Coin) : Bool :=
  (binanceSet binanceTradable).contains (toLowerCase x.symbol)

/-- The expression `x.price_change_percentage_7d_in_currency ?? x.price_change_percentage_7d ?? 0`. -/
def change7d (x : Coin) : ℚ :=
  match x.price_change_percentage_7d_in_currency with
  | some v => v
  | none => nullish x.price_change_percentage_7d 0

/-- The list `momentum` of line 218. -/
def momentum (toLowerCase : String → String) (m : List Coin)
    (binanceTradable : Option (List String)) : List Coin :=
  (m.filter (fun x => onBinance toLowerCase binanceTradable x
    && pos x.price_change_percentage_1h_in_currency
    && decide (nullish x.price_change_percentage_24h 0 ≥ 5)
    && decide (change7d x ≥ 10))).take 8

/-- The list `dip` of line 219. -/
def dip (toLowerCase : String → String) (m : List Coin)
    (binanceTradable : Option (List String)) : List Coin :=
  (m.filter (fun x => onBinance toLowerCase binanceTradable x
    && decide (nullish x.price_change_percentage_24h 0 ≤ -7)
    && decide (change7d x < 0))).take 8

/-- The list `reversal` of line 220. -/
def reversal (toLowerCase : String → String) (m : List Coin)
    (binanceTradable : Option (List String)) : List Coin :=
  (m.filter (fun x => onBinance toLowerCase binanceTradable x
    && neg x.price_change_percentage_24h
    && decide (nullish x.price_change_percentage_1h_in_currency 0 ≥ 1)
    && decide (change7d x > -3))).take 8

/-- One rendered signal row: the values `generateSignalRow` interpolates into its template.
`rrRatio`, `tpShown` and `slShown` are `none` where the template shows the dash. The ratio
is the exact quotient that `toFixed(2)` formats. -/
structure SignalRow where
  coin : Coin
  takeProfit : ℚ
  stopLoss : ℚ
  rrRatio : Option ℚ
  tpShown : Option ℚ
  slShown : Option ℚ
  change1h : ℚ
  change24h : ℚ
  deriving DecidableEq

/-- The function `generateSignalRow(x, action)` of lines 260-296. -/
def generateSignalRow (x : Coin) (action : String) : SignalRow :=
  let change1h := nullish x.price_change_percentage_1h_in_currency 0
  let change24h := nullish x.price_change_percentage_24h 0
  let shown (v : ℚ) : Option ℚ := if action ≠ "Wait" then some v else none
  if action = "Short" then
    let takeProfit := x.current_price * 0.90
    let stopLoss := x.current_price * 1.05
    { coin := x, takeProfit := takeProfit, stopLoss := stopLoss,
      rrRatio := some ((x.current_price - takeProfit) / (stopLoss - x.current_price)),
      tpShown := shown takeProfit, slShown := shown stopLoss,
      change1h := change1h, change24h := change24h }
  else if action = "Long" then
    let takeProfit := x.current_price * 1.10
    let stopLoss := x.current_price * 0.95
    { coin := x, takeProfit := takeProfit, stopLoss := stopLoss,
      rrRatio := some ((takeProfit - x.current_price) / (x.current_price - stopLoss)),
      tpShown := shown takeProfit, slShown := shown stopLoss,
      change1h := change1h, change24h := change24h }
  else
    { coin := x, takeProfit := 0, stopLoss := 0, rrRatio := none,
      tpShown := shown 0, slShown := shown 0,
      change1h := change1h, change24h := change24h }

/-- One idea card (`ideaCard`): its title and its signal rows; with no rows the template
is the "No signals found matching criteria." card. -/
structure IdeaCard where
  title : String
  rows : List SignalRow
  deriving DecidableEq

/-- The function `ideaCard(title, coins, cardClass, textClass, actionType)`; the two CSS
class arguments are constants of each call site and are left out. -/
def ideaCard (title : String) (coins : List Coin) (actionType : String) : IdeaCard :=
  { title := title, rows := coins.map (fun x => generateSignalRow x actionType) }

/-! ## Favorites (lines 298-334) -/

/-- Value of `localStorage` under the key `fx_favorites`. -/
inductive Stored where
  | absent
  | unparsable
  | array (ids : List String)
  deriving DecidableEq

/-- The function `getFavorites`: `JSON.parse(localStorage.getItem('fx_favorites') || '[]')`,
and `[]` when parsing throws. -/
def getFavorites (fx_favorites : Stored) : List String :=
  match fx_favorites with
  | Stored.absent => []
  | Stored.unparsable => []
  | Stored.array ids => ids

/-- The function `setFavorites`: stores `JSON.stringify(arr)`. -/
def setFavorites (arr : List String) : Stored := Stored.array arr

/-- The function `isFavorite`: `getFavorites().includes(id)`. -/
def isFavorite (fx_favorites : Stored) (id : String) : Bool :=
  (getFavorites fx_favorites).contains id

/-- Lines 303-305 of `toggleFavorite`: the new stored list. -/
def toggleStored (fx_favorites : Stored) (id : String) : Stored :=
  let favs := getFavorites fx_favorites
  setFavorites (if favs.contains id then favs.filter (fun x => x ≠ id) else favs ++ [id])

/-- The list `favCoins` of `renderFavorites`: `state.markets.filter(x => favs.includes(x.id))`. -/
def favCoins (markets : List Coin) (fx_favorites : Stored) : List Coin :=
  markets.filter (fun x => (getFavorites fx_favorites).contains x.id)

/-! ## News (lines 349-385) -/

/-- One mapped feed item; `pubDate` is the timestamp of the `Date`. -/
structure NewsItem where
  title : String
  link : String
  pubDate : ℤ
  source : String
  deriving DecidableEq

/-- Result of `fetchJSON` (or of `fetch` followed by `json()`): the body, or a failure
(non-2xx status, transport error, JSON parse error). -/
inductive Fetched (α : Type) where
  | ok (body : α)
  | failed (msg : String)
  deriving DecidableEq

/-- The loop of lines 359-370: items of each feed that was fetched, in feed order. -/
def collectItems : List (Fetched (List NewsItem)) → List NewsItem
  | [] => []
  | Fetched.ok arr :: us => arr ++ collectItems us
  | Fetched.failed _ :: us => collectItems us

/-- The filter of line 374, `i => !seen.has(i.title) && seen.add(i.title)`, run with the
set `seen` as it stands when the item is tested. -/
def dedupSeen (seen : List String) : List NewsItem → List NewsItem
  | [] => []
  | i :: rest =>
    if seen.contains i.title then dedupSeen seen rest
    else i :: dedupSeen (i.title :: seen) rest

/-- Comparator of line 374: `b.pubDate - a.pubDate`. -/
def cmpNews (a b : NewsItem) : ℚ := ((b.pubDate - a.pubDate : ℤ) : ℚ)

/-- The headlines `loadNews` displays: `items.slice(0, 10)` after the dedup and the sort. -/
def loadNews (feeds : List (Fetched (List NewsItem))) : List NewsItem :=
  (jsSort cmpNews (dedupSeen [] (collectItems feeds))).take 10

/-- Deduplication by exact title keeping the first occurrence, as the specification
words it. -/
def dedupByTitle : List NewsItem → List NewsItem
  | [] => []
  | i :: rest => i :: (dedupByTitle rest).filter (fun j => j.title ≠ i.title)

/-! ## Snapshot state, containers and refresh (lines 11, 79-120) -/

/-- Global statistics (`global.data`); the per-fiat tables are association lists. -/
structure GlobalStats where
  total_market_cap : List (String × ℚ)
  total_volume : List (String × ℚ)
  market_cap_percentage_btc : Option ℚ
  active_cryptocurrencies : ℚ
  deriving DecidableEq

/-- One trending coin (`c.item`). -/
structure TrendingItem where
  id : String
  name : String
  symbol : String
  small : String
  market_cap_rank : Option ℕ
  deriving DecidableEq

/-- The object `state` of line 11. -/
structure State where
  vs : String
  markets : List Coin
  global : Option GlobalStats
  trending : List TrendingItem
  filtered : List Coin
  binanceTradable : Option (List String)
  deriving DecidableEq

/-- Contents of `els.snapshot` once rendered: the currency code of the formatter and the
four card values. -/
structure SnapshotHtml where
  vs : String
  mcap : ℚ
  vol : ℚ
  btcDom : Option ℚ
  act : ℚ
  deriving DecidableEq

/-- One row of the movers lists: the state of its star (`favStar`) and its coin. -/
structure MoverRow where
  star : Bool
  coin : Coin
  deriving DecidableEq

/-- Contents of `els.movers`: the placeholder of line 99 or the two rendered lists. -/
inductive MoversHtml where
  | loading
  | lists (vs : String) (gainers losers : List MoverRow)
  deriving DecidableEq

/-- One card of `els.trending`: its star and its item (its index is its position). -/
structure TrendingCard where
  star : Bool
  item : TrendingItem
  deriving DecidableEq

/-- Contents of `els.ideas`: the three cards and the currency code of the formatter. -/
structure IdeasHtml where
  vs : String
  momentum : IdeaCard
  dip : IdeaCard
  reversal : IdeaCard
  deriving DecidableEq

/-- Contents of `els.news`: the placeholder of line 351 or the headlines (an empty list is
the text "No news available."). -/
inductive NewsHtml where
  | loading
  | headlines (items : List NewsItem)
  deriving DecidableEq

/-- The containers of `els`. `none` is the markup of the page itself, before any write
(the page is not part of the sources). `favoritesSectionShown` is `style.display`:
`some false` for `'none'`, `some true` for `'block'`. -/
structure Els where
  snapshot : Option SnapshotHtml
  snapshotHidden : Bool
  movers : Option MoversHtml
  moversNote : Option ℕ
  trending : Option (List TrendingCard)
  trendingNote : Option ℕ
  ideas : Option IdeasHtml
  favoritesSectionShown : Option Bool
  favorites : Option (List Coin)
  news : Option NewsHtml
  newsLoaded : Bool
  deriving DecidableEq

/-- An HTTP request of `loadAll`: `gecko.global`, `gecko.markets(vs)`, `gecko.trending`
(lines 5-7) and the exchange listing `https://api.binance.com/api/v3/exchangeInfo`. -/
inductive Request where
  | geckoGlobal
  | geckoMarkets (vs : String)
  | geckoTrending
  | binanceExchangeInfo
  deriving DecidableEq

/-- Everything the module reads and writes: `state`, the containers, the favorites key of
`localStorage`, and the requests issued so far. -/
structure World where
  state : State
  els : Els
  fx_favorites : Stored
  requests : List Request
  deriving DecidableEq

/-- The function `renderSnapshot` (lines 124-149). -/
def renderSnapshot (w : World) : World :=
  match w.state.global with
  | none => w
  | some g =>
    { w with els := { w.els with
        snapshot := some
          { vs := w.state.vs
            mcap := (g.total_market_cap.lookup w.state.vs).getD 0
            vol := (g.total_volume.lookup w.state.vs).getD 0
            btcDom := g.market_cap_percentage_btc
            act := g.active_cryptocurrencies }
        snapshotHidden := false } }

/-- The function `renderMovers` (lines 151-186). -/
def renderMovers (w : World) : World :=
  let row (x : Coin) : MoverRow := { star := isFavorite w.fx_favorites x.id, coin := x }
  { w with els := { w.els with
      moversNote := some w.state.filtered.length
      movers := some (MoversHtml.lists w.state.vs
        ((topUp w.state.filtered).map row) ((topDown w.state.filtered).map row)) } }

/-- The function `renderTrending` (lines 188-209). -/
def renderTrending (w : World) : World :=
  { w with els := { w.els with
      trendingNote := some w.state.trending.length
      trending := some (w.state.trending.map
        (fun it => { star := isFavorite w.fx_favorites it.id, item := it })) } }

/-- The function `renderIdeas` (lines 211-227). -/
def renderIdeas (toLowerCase : String → String) (w : World) : World :=
  let m := w.state.filtered
  { w with els := { w.els with
      ideas := some
        { vs := w.state.vs
          momentum := ideaCard "Momentum Longs"
            (momentum toLowerCase m w.state.binanceTradable) "Long"
          dip := ideaCard "Dip Shorts" (dip toLowerCase m w.state.binanceTradable) "Short"
          reversal := ideaCard "Reversal Watch"
            (reversal toLowerCase m w.state.binanceTradable) "Wait" } } }

/-- The function `renderFavorites` (lines 311-334). -/
def renderFavorites (w : World) : World :=
  let fc := favCoins w.state.markets w.fx_favorites
  if fc.length = 0 then
    { w with els := { w.els with favoritesSectionShown := some false } }
  else
    { w with els := { w.els with favoritesSectionShown := some true, favorites := some fc } }

/-- The function `toggleFavorite` (lines 302-309). -/
def toggleFavorite (id : String) (w : World) : World :=
  let w1 := { w with fx_favorites := toggleStored w.fx_favorites id }
  renderTrending (renderMovers (renderFavorites w1))

/-- Body of the global-stats response; `data` may be missing. -/
structure GlobalDoc where
  data : Option GlobalStats
  deriving DecidableEq

/-- One entry of `trending.coins`. -/
structure TrendingEntry where
  item : TrendingItem
  deriving DecidableEq

/-- Body of the trending response; `coins` may be missing. -/
structure TrendingDoc where
  coins : Option (List TrendingEntry)
  deriving DecidableEq

/-- What the network answers during one `loadAll`. The body of the exchange response is
the list of `baseAsset` values of `data.symbols`, or `none` when it has no such list. -/
structure Network where
  global : Fetched GlobalDoc
  markets : Fetched (List Coin)
  trending : Fetched TrendingDoc
  exchangeInfo : Fetched (Option (List String))
  deriving DecidableEq

/-- The function `getBinanceSymbols` (lines 85-93). -/
def getBinanceSymbols (toLowerCase : String → String) (net : Network) (w : World) : World :=
  match w.state.binanceTradable with
  | some _ => w
  | none =>
    let w1 := { w with requests := w.requests ++ [Request.binanceExchangeInfo] }
    match net.exchangeInfo with
    | Fetched.ok (some symbols) =>
      { w1 with state := { w1.state with binanceTradable := some (symbols.map toLowerCase) } }
    | Fetched.ok none => { w1 with state := { w1.state with binanceTradable := some [] } }
    | Fetched.failed _ => { w1 with state := { w1.state with binanceTradable := some [] } }

/-- The synchronous start of `loadNews` (lines 350-351), which `loadAll` triggers without
awaiting it. -/
def loadNewsStart (w : World) : World :=
  { w with els := { w.els with newsLoaded := true, news := some NewsHtml.loading } }

/-- Lines 107-119 of `loadAll`, run once the three awaited bodies are there: commit the
snapshot, fetch the tradable symbols unless cached, render every view, start the news. -/
def loadAllCommit (toLowerCase : String → String) (net : Network) (w1 : World)
    (global : GlobalDoc) (markets : List Coin) (trending : TrendingDoc) : World :=
  let w2 := { w1 with state := { w1.state with
    global := global.data
    markets := markets
    filtered := markets
    trending := match trending.coins with
      | some cs => cs.map (fun c => c.item)
      | none => [] } }
  let w3 := getBinanceSymbols toLowerCase net w2
  let w4 := renderFavorites (renderIdeas toLowerCase
    (renderTrending (renderMovers (renderSnapshot w3))))
  if w4.els.newsLoaded then w4 else loadNewsStart w4

/-- Lines 96-99 of `loadAll`, up to the await: the movers placeholder is written and the
three primary requests are issued. -/
def loadAllStart (w : World) : World :=
  { w with
    els := { w.els with movers := some MoversHtml.loading }
    requests := w.requests ++
      [Request.geckoGlobal, Request.geckoMarkets w.state.vs, Request.geckoTrending] }

/-- The function `loadAll` (lines 95-120): whether it threw, and the world it leaves.
`Promise.all` issues the three requests at once and rejects as soon as one of them does;
the message kept here is that of the first failed request in argument order. -/
def loadAll (toLowerCase : String → String) (net : Network) (w : World) :
    Except String Unit × World :=
  match net.global, net.markets, net.trending with
  | Fetched.failed e, _, _ => (Except.error e, loadAllStart w)
  | Fetched.ok _, Fetched.failed e, _ => (Except.error e, loadAllStart w)
  | Fetched.ok _, Fetched.ok _, Fetched.failed e => (Except.error e, loadAllStart w)
  | Fetched.ok global, Fetched.ok markets, Fetched.ok trending =>
    (Except.ok (), loadAllCommit toLowerCase net (loadAllStart w) global markets trending)

/-! ## Sort keys and sample coins -/

/-- Sort key of the gainers ranking: `x.price_change_percentage_24h || -1`. -/
def keyUp (x : Coin) : ℚ := orElse x.price_change_percentage_24h (-1)

/-- Sort key of the losers ranking: `x.price_change_percentage_24h || 1`. -/
def keyDown (x : Coin) : ℚ := orElse x.price_change_percentage_24h 1

/-- Sample coin with the given id and 24h change; the other fields are fixed. -/
def coin24 (id : String) (pc : Option ℚ) : Coin :=
  { id := id, symbol := id, name := id, image := "", market_cap_rank := none,
    current_price := 1, price_change_percentage_24h := pc,
    price_change_percentage_1h_in_currency := none,
    price_change_percentage_7d_in_currency := none,
    price_change_percentage_7d := none }

/-! ## The idea screens as the specification words them -/

/-- The 1h change, a missing value counting as 0. -/
def chg1h (x : Coin) : ℚ := x.price_change_percentage_1h_in_currency.getD 0

/-- The 24h change, a missing value counting as 0. -/
def chg24h (x : Coin) : ℚ := x.price_change_percentage_24h.getD 0

/-- The 7d change: the in-currency field, else the plain field, else 0. -/
def chg7d (x : Coin) : ℚ :=
  (x.price_change_percentage_7d_in_currency.orElse
    (fun _ => x.price_change_percentage_7d)).getD 0

/-- Momentum predicate of the specification. -/
def isMomentum (toLowerCase : String → String) (T : List String) (x : Coin) : Bool :=
  decide (toLowerCase x.symbol ∈ T ∧ chg1h x > 0 ∧ chg24h x ≥ 5 ∧ chg7d x ≥ 10)

/-- Dip predicate of the specification. -/
def isDip (toLowerCase : String → String) (T : List String) (x : Coin) : Bool :=
  decide (toLowerCase x.symbol ∈ T ∧ chg24h x ≤ -7 ∧ chg7d x < 0)

/-- Reversal predicate of the specification. -/
def isReversal (toLowerCase : String → String) (T : List String) (x : Coin) : Bool :=
  decide (toLowerCase x.symbol ∈ T ∧ chg24h x < 0 ∧ chg1h x ≥ 1 ∧ chg7d x > -3)

/-- Sample coin for the idea screens: symbol and the 1h, 24h and in-currency 7d changes. -/
def coinIdea (symbol : String) (h1 h24 d7 : Option ℚ) : Coin :=
  { id := symbol, symbol := symbol, name := symbol, image := "", market_cap_rank := none,
    current_price := 100, price_change_percentage_24h := h24,
    price_change_percentage_1h_in_currency := h1,
    price_change_percentage_7d_in_currency := d7,
    price_change_percentage_7d := none }

/-- Lower-casing of the ASCII letters: the instance of `toLowerCase` the sample inputs are
evaluated with. -/
def asciiLower (s : String) : String := String.mk (s.data.map Char.toLower)

/-! ## Initial world and sample responses -/

/-- The initial `state` of line 11. -/
def initState : State :=
  { vs := "usd", markets := [], global := none, trending := [], filtered := [],
    binanceTradable := none }

/-- The containers before any write. -/
def initEls : Els :=
  { snapshot := none, snapshotHidden := true, movers := none, moversNote := none,
    trending := none, trendingNote := none, ideas := none, favoritesSectionShown := none,
    favorites := none, news := none, newsLoaded := false }

/-- The world at page load: initial state, untouched containers, no stored favorites. -/
def initWorld : World :=
  { state := initState, els := initEls, fx_favorites := Stored.absent, requests := [] }

/-- Sample responses: every request answered. -/
def netOk : Network :=
  { global := Fetched.ok { data := none }
    markets := Fetched.ok [coin24 "a" (some 1), coin24 "b" (some (-1))]
    trending := Fetched.ok { coins := none }
    exchangeInfo := Fetched.ok (some ["A"]) }

/-- Sample responses: the global-stats request fails, the others are answered. -/
def netGlobalFails : Network :=
  { netOk with global := Fetched.failed "HTTP 500" }

/-! ## Event handlers of `init` (lines 32-77) and the refresh state machine -/

/-- `String.prototype.includes`: `q` occurs in `s` as a contiguous run of characters. -/
def includes (s q : String) : Bool := decide (q.data <:+: s.data)

/-- The `input` handler of `els.search` (lines 38-42); `value` is `e.target.value`. -/
def searchInput (toLowerCase trim : String → String) (value : String) (w : World) : World :=
  let q := toLowerCase (trim value)
  let w1 := { w with state := { w.state with
    filtered :=
      if q ≠ "" then
        w.state.markets.filter (fun x =>
          includes x.id q || includes (toLowerCase x.symbol) q
            || includes (toLowerCase x.name) q)
      else w.state.markets } }
  renderFavorites (renderIdeas toLowerCase (renderMovers w1))

/-- The `change` handler of `els.fiat` (lines 32-36); `value` is `e.target.value`. A
failure of `loadAll` is caught and reported with `alert`. -/
def fiatChange (toLowerCase : String → String) (value : String) (net : Network)
    (w : World) : World :=
  let w1 := { w with state := { w.state with vs := value } }
  renderFavorites (loadAll toLowerCase net w1).2

/-- The `click` handler of `els.refresh` (lines 44-59); a failure of `loadAll` is caught
and logged. The button and its spinner are not part of the world. -/
def refreshClick (toLowerCase : String → String) (net : Network) (w : World) : World :=
  match loadAll toLowerCase net w with
  | (Except.ok _, w1) => renderFavorites w1
  | (Except.error _, w1) => w1

/-- The function `initLoad` (lines 65-77); a failure of `loadAll` is caught and logged. -/
def initLoad (toLowerCase : String → String) (net : Network) (w : World) : World :=
  (loadAll toLowerCase net w).2

/-- An event of the page: a fiat change, a click on refresh, a search input, a click on a
star. Each refresh carries what the network answers to it, so it succeeds or fails as a
unit. -/
inductive Event where
  | fiat (value : String) (net : Network)
  | refresh (net : Network)
  | search (value : String)
  | toggle (id : String)
  deriving DecidableEq

/-- The world together with a record that is not in the program: the fiat code
`gecko.markets` was requested with when the current `state.markets` was fetched, `none`
while `state.markets` is still the initial list. -/
structure Machine where
  world : World
  marketsFiat : Option String
  deriving DecidableEq

/-- The record kept for `state.markets` after a `loadAll` that started with fiat code `vs`:
`vs` when it committed, unchanged when it threw. -/
def fetchedFor (result : Except String Unit) (vs : String) (old : Option String) :
    Option String :=
  match result with
  | Except.ok _ => some vs
  | Except.error _ => old

/-- One step of the page: the handler of the event, and the record for `state.markets`. -/
def step (toLowerCase trim : String → String) (m : Machine) : Event → Machine
  | Event.fiat value net =>
    { world := fiatChange toLowerCase value net m.world
      marketsFiat := fetchedFor
        (loadAll toLowerCase net
          { m.world with state := { m.world.state with vs := value } }).1
        value m.marketsFiat }
  | Event.refresh net =>
    { world := refreshClick toLowerCase net m.world
      marketsFiat := fetchedFor (loadAll toLowerCase net m.world).1 m.world.state.vs
        m.marketsFiat }
  | Event.search value =>
    { world := searchInput toLowerCase trim value m.world, marketsFiat := m.marketsFiat }
  | Event.toggle id =>
    { world := toggleFavorite id m.world, marketsFiat := m.marketsFiat }

/-- The page after a sequence of events. -/
def run (toLowerCase trim : String → String) (m : Machine) (events : List Event) : Machine :=
  events.foldl (step toLowerCase trim) m

/-- The page at load, before any event. -/
def initMachine : Machine := { world := initWorld, marketsFiat := none }

/-- The fiat code `state.vs` is the one `state.markets` was fetched for, or
`state.markets` is still the initial empty list. -/
def fiatConsistent (m : Machine) : Prop :=
  match m.marketsFiat with
  | none => m.world.state.markets = []
  | some code => m.world.state.vs = code

instance fiatConsistentDecidable (m : Machine) : Decidable (fiatConsistent m) := by
  unfold fiatConsistent
  cases m.marketsFiat <;> exact inferInstance

/-- The three primary fetches of a refresh all succeed. -/
def primaryOk (net : Network) : Bool :=
  match net.global, net.markets, net.trending with
  | Fetched.ok _, Fetched.ok _, Fetched.ok _ => true
  | _, _, _ => false

/-- The event is not a fiat change whose re-fetch fails. -/
def refetchOk : Event → Bool
  | Event.fiat _ net => primaryOk net
  | _ => true

/-- Removal of leading and trailing blanks: the instance of `trim` the sample inputs are
evaluated with. -/
def trimBlanks (s : String) : String :=
  String.mk ((s.data.dropWhile Char.isWhitespace).reverse.dropWhile Char.isWhitespace).reverse

/-! ## Cookie consent (`ConsentManager` of `src/assets/js/main.js`, lines 7-103) -/

namespace ConsentManager

/-- The consent record `state` (lines 13-19). -/
structure Consent where
  necessary : Bool
  analytics : Bool
  marketing : Bool
  timestamp : Option String
  version : ℕ
  deriving DecidableEq

/-- An object spread over the consent record: the keys it carries. -/
structure Patch where
  necessary : Option Bool
  analytics : Option Bool
  marketing : Option Bool
  timestamp : Option (Option String)
  version : Option ℕ
  deriving DecidableEq

/-- The spread `{ ...state, ...patch }`: a key of the patch replaces that of the record. -/
def spread (state : Consent) (patch : Patch) : Consent :=
  { necessary := patch.necessary.getD state.necessary
    analytics := patch.analytics.getD state.analytics
    marketing := patch.marketing.getD state.marketing
    timestamp := patch.timestamp.getD state.timestamp
    version := patch.version.getD state.version }

/-- `JSON.stringify(state)`: the object with every key of the record. -/
def stringify (state : Consent) : Patch :=
  { necessary := some state.necessary
    analytics := some state.analytics
    marketing := some state.marketing
    timestamp := some state.timestamp
    version := some state.version }

/-- Value of `localStorage` under `STORAGE_KEY` (`fhatalx_consent_v3`): nothing (or the
empty string), a string that does not parse, or the JSON of an object. -/
inductive StoredConsent where
  | absent
  | unparsable
  | json (object : Patch)
  deriving DecidableEq

/-- The manager: the record, the storage key, and whether the banner and the modal are
visible. The toggles that `applyConsent` synchronises are written but never read by these
paths, and are left out. -/
structure Manager where
  state : Consent
  stored : StoredConsent
  bannerShown : Bool
  modalShown : Bool
  deriving DecidableEq

/-- The default record of lines 13-19. -/
def defaultState : Consent :=
  { necessary := true, analytics := false, marketing := false, timestamp := none,
    version := 3 }

/-- The function `init` (lines 21-39), the delayed `showBanner` taken as done. -/
def init (m : Manager) : Manager :=
  match m.stored with
  | StoredConsent.json parsed => { m with state := spread m.state parsed }
  | StoredConsent.unparsable => { m with bannerShown := true }
  | StoredConsent.absent => { m with bannerShown := true }

/-- The function `save(newState)` (lines 41-47); `now` is `new Date().toISOString()`. -/
def save (newState : Patch) (now : String) (m : Manager) : Manager :=
  let state := { spread m.state newState with timestamp := some now }
  { state := state
    stored := StoredConsent.json (stringify state)
    bannerShown := false
    modalShown := false }

/-- The click handler of `btn-accept-all` (lines 81-83). -/
def acceptAll (now : String) (m : Manager) : Manager :=
  save { necessary := none, analytics := some true, marketing := some false,
         timestamp := none, version := none } now m

/-- The click handler of `btn-reject-all` (lines 84-86). -/
def rejectAll (now : String) (m : Manager) : Manager :=
  save { necessary := none, analytics := some false, marketing := some false,
         timestamp := none, version := none } now m

/-- The click handler of `btn-save-preferences` (lines 96-100); `checked` is
`document.getElementById('chk-analytics')?.checked`, `none` when it is undefined. -/
def savePreferences (checked : Option Bool) (now : String) (m : Manager) : Manager :=
  let analytics := checked.getD false
  save { necessary := none, analytics := some analytics, marketing := some false,
         timestamp := none, version := none } now m

end ConsentManager

/-! ## Helpers for the statements on null changes and on stored favorites -/

/-- The coin with a null 24h change replaced by `d`; a defined change is kept. -/
def nullAs (d : ℚ) (x : Coin) : Coin :=
  { x with price_change_percentage_24h := some (nullish x.price_change_percentage_24h d) }

/-- Sample world: the coins `a`, `b`, `c` in the snapshot and the stored list
`["c", "zz", "a", "c"]`. -/
def favWorld : World :=
  { initWorld with
    state := { initState with
      markets := [coin24 "a" (some 1), coin24 "b" (some (-1)), coin24 "c" none]
      filtered := [coin24 "b" (some (-1))] }
    fx_favorites := Stored.array ["c", "zz", "a", "c"] }

/-! ## Sorting lemmas -/

theorem jsSort_perm {α : Type} (cmp : α → α → ℚ) (l : List α) : (jsSort cmp l).Perm l :=
  List.perm_insertionSort _ l

theorem jsSort_pairwise {α : Type} (cmp : α → α → ℚ) (k : α → ℚ)
    (h : ∀ a b, cmp a b ≤ 0 ↔ k b ≤ k a) (l : List α) :
    (jsSort cmp l).Pairwise (fun a b => k b ≤ k a) := by
  haveI : IsTotal α (fun a b => cmp a b ≤ 0) :=
    ⟨fun a b => by simp only [h]; exact le_total _ _⟩
  haveI : IsTrans α (fun a b => cmp a b ≤ 0) :=
    ⟨fun a b c hab hbc => by
      simp only [h] at hab hbc ⊢
      exact le_trans hbc hab⟩
  have hs := List.sorted_insertionSort (fun a b => cmp a b ≤ 0) l
  exact List.Pairwise.imp (fun {a b} hab => (h a b).1 hab) hs

theorem rankUp_pairwise (m : List Coin) :
    (rankUp m).Pairwise (fun a b => keyUp b ≤ keyUp a) :=
  jsSort_pairwise cmpUp keyUp (fun a b => by simp [cmpUp, keyUp]) m

theorem rankDown_pairwise (m : List Coin) :
    (rankDown m).Pairwise (fun a b => keyDown a ≤ keyDown b) := by
  have h := jsSort_pairwise cmpDown (fun x => - keyDown x)
    (fun a b => by simp [cmpDown, keyDown]) m
  exact List.Pairwise.imp (fun {a b} hab => by simpa using hab) h

theorem pairwise_of_pair {α : Type} {R : α → α → Prop} {l : List α} {a b : α}
    (hp : l.Pairwise R) (hs : [a, b].Sublist l) : R a b := by
  have h2 := hp.sublist hs
  simpa using h2

theorem pairwise_take_drop {α : Type} {R : α → α → Prop} {l : List α} (n : ℕ) {a b : α}
    (hp : l.Pairwise R) (ha : a ∈ l.take n) (hb : b ∈ l.drop n) : R a b := by
  rw [← List.take_append_drop n l, List.pairwise_append] at hp
  exact hp.2.2 a ha b hb

theorem mem_take_or_drop {α : Type} {l : List α} (n : ℕ) {a : α} (h : a ∈ l) :
    a ∈ l.take n ∨ a ∈ l.drop n := by
  rw [← List.take_append_drop n l, List.mem_append] at h
  exact h

/-! ## Movers -/

theorem mem_of_mem_topUp {m : List Coin} {a : Coin} (h : a ∈ topUp m) : a ∈ m :=
  (jsSort_perm cmpUp m).mem_iff.1 (List.mem_of_mem_take h)

theorem mem_of_mem_topDown {m : List Coin} {a : Coin} (h : a ∈ topDown m) : a ∈ m :=
  (jsSort_perm cmpDown m).mem_iff.1 (List.mem_of_mem_take h)

theorem keyUp_of_nonzero {a : Coin} {v : ℚ} (h : a.price_change_percentage_24h = some v)
    (hz : a.price_change_percentage_24h ≠ some 0) : keyUp a = v := by
  have hv : v ≠ 0 := fun e => hz (by rw [h, e])
  simp [keyUp, orElse, h, hv]

theorem keyDown_of_nonzero {a : Coin} {v : ℚ} (h : a.price_change_percentage_24h = some v)
    (hz : a.price_change_percentage_24h ≠ some 0) : keyDown a = v := by
  have hv : v ≠ 0 := fun e => hz (by rw [h, e])
  simp [keyDown, orElse, h, hv]

/-- Movers on a list in which no 24h change is exactly 0: both lists have `min 5 n`
entries, the defined changes of the gainers never increase and those of the losers never
decrease, and a later entry of the ranking never beats a listed one. -/
theorem movers_sorted_of_nonzero (m : List Coin)
    (hz : ∀ x ∈ m, x.price_change_percentage_24h ≠ some 0) :
    (topUp m).length = min 5 m.length
    ∧ (topUp m).Pairwise (fun a b => ∀ va vb, a.price_change_percentage_24h = some va →
        b.price_change_percentage_24h = some vb → vb ≤ va)
    ∧ (∀ a ∈ topUp m, ∀ b ∈ (rankUp m).drop 5, ∀ va vb,
        a.price_change_percentage_24h = some va →
        b.price_change_percentage_24h = some vb → vb ≤ va)
    ∧ (topDown m).length = min 5 m.length
    ∧ (topDown m).Pairwise (fun a b => ∀ va vb, a.price_change_percentage_24h = some va →
        b.price_change_percentage_24h = some vb → va ≤ vb)
    ∧ (∀ a ∈ topDown m, ∀ b ∈ (rankDown m).drop 5, ∀ va vb,
        a.price_change_percentage_24h = some va →
        b.price_change_percentage_24h = some vb → va ≤ vb) := by
  have hmemU : ∀ b ∈ rankUp m, b ∈ m := fun b hb => (jsSort_perm cmpUp m).mem_iff.1 hb
  have hmemD : ∀ b ∈ rankDown m, b ∈ m := fun b hb => (jsSort_perm cmpDown m).mem_iff.1 hb
  refine ⟨?_, ?_, ?_, ?_, ?_, ?_⟩
  · unfold topUp rankUp
    rw [List.length_take, (jsSort_perm cmpUp m).length_eq]
  · have hp : (topUp m).Pairwise (fun a b => keyUp b ≤ keyUp a) :=
      (rankUp_pairwise m).sublist (List.take_sublist _ _)
    refine List.Pairwise.imp_of_mem ?_ hp
    intro a b ha hb hab va vb hva hvb
    rw [keyUp_of_nonzero hva (hz a (mem_of_mem_topUp ha)),
      keyUp_of_nonzero hvb (hz b (mem_of_mem_topUp hb))] at hab
    exact hab
  · intro a ha b hb va vb hva hvb
    have hab := pairwise_take_drop 5 (rankUp_pairwise m) ha hb
    rw [keyUp_of_nonzero hva (hz a (mem_of_mem_topUp ha)),
      keyUp_of_nonzero hvb (hz b (hmemU b (List.mem_of_mem_drop hb)))] at hab
    exact hab
  · unfold topDown rankDown
    rw [List.length_take, (jsSort_perm cmpDown m).length_eq]
  · have hp : (topDown m).Pairwise (fun a b => keyDown a ≤ keyDown b) :=
      (rankDown_pairwise m).sublist (List.take_sublist _ _)
    refine List.Pairwise.imp_of_mem ?_ hp
    intro a b ha hb hab va vb hva hvb
    rw [keyDown_of_nonzero hva (hz a (mem_of_mem_topDown ha)),
      keyDown_of_nonzero hvb (hz b (mem_of_mem_topDown hb))] at hab
    exact hab
  · intro a ha b hb va vb hva hvb
    have hab := pairwise_take_drop 5 (rankDown_pairwise m) ha hb
    rw [keyDown_of_nonzero hva (hz a (mem_of_mem_topDown ha)),
      keyDown_of_nonzero hvb (hz b (hmemD b (List.mem_of_mem_drop hb)))] at hab
    exact hab

/-- C1 (defect): a coin whose 24h change is exactly 0 is ranked as if it were -1 among the
gainers and +1 among the losers, because `0 || d` is `d`. For the filtered list
`[a (0%), b (-0.5%)]` the gainers list is `[b, a]`, whose 24h changes `-1/2, 0` increase;
with five coins at -0.5% ahead of one at 0% the coin at 0% is left out of the gainers
while coins at -0.5% are listed; for `[a (0%), b (0.5%)]` the losers list is `[b, a]`,
whose 24h changes `1/2, 0` decrease. -/
theorem topUp_zero_change_misranked :
    topUp [coin24 "a" (some 0), coin24 "b" (some (-1/2))]
        = [coin24 "b" (some (-1/2)), coin24 "a" (some 0)]
    ∧ (topUp [coin24 "b1" (some (-1/2)), coin24 "b2" (some (-1/2)),
          coin24 "b3" (some (-1/2)), coin24 "b4" (some (-1/2)), coin24 "b5" (some (-1/2)),
          coin24 "a" (some 0)]).map (fun x => x.id) = ["b1", "b2", "b3", "b4", "b5"]
    ∧ topDown [coin24 "a" (some 0), coin24 "b" (some (1/2))]
        = [coin24 "b" (some (1/2)), coin24 "a" (some 0)] := by
  decide!

/-- C2 (as stated, refuted): in the gainers ranking of `[d (-2%), n (null)]` the null coin
`n` is placed ahead of the coin `d` whose change is defined, and in the losers ranking of
`[d (+2%), n (null)]` the null coin is placed ahead of `d`. -/
theorem rank_null_ahead_of_defined :
    rankUp [coin24 "d" (some (-2)), coin24 "n" none]
        = [coin24 "n" none, coin24 "d" (some (-2))]
    ∧ rankDown [coin24 "d" (some 2), coin24 "n" none]
        = [coin24 "n" none, coin24 "d" (some 2)] := by
  decide!

theorem orElse_nullAs_up (x : Coin) :
    orElse (nullAs (-1) x).price_change_percentage_24h (-1)
      = orElse x.price_change_percentage_24h (-1) := by
  unfold nullAs nullish orElse
  cases x.price_change_percentage_24h with
  | none => simp
  | some v => rfl

theorem orElse_nullAs_down (x : Coin) :
    orElse (nullAs 1 x).price_change_percentage_24h 1
      = orElse x.price_change_percentage_24h 1 := by
  unfold nullAs nullish orElse
  cases x.price_change_percentage_24h with
  | none => simp
  | some v => rfl

theorem rankUp_nullAs (m : List Coin) :
    (rankUp m).map (nullAs (-1)) = rankUp (m.map (nullAs (-1))) := by
  unfold rankUp jsSort
  apply List.map_insertionSort
  intro x _ y _
  simp only [cmpUp, orElse_nullAs_up]

theorem rankDown_nullAs (m : List Coin) :
    (rankDown m).map (nullAs 1) = rankDown (m.map (nullAs 1)) := by
  unfold rankDown jsSort
  apply List.map_insertionSort
  intro x _ y _
  simp only [cmpDown, orElse_nullAs_down]

/-- C2 (amended): a null coin is ranked exactly as a coin at -1% among the gainers and at
+1% among the losers: ranking the list and then replacing every null change by -1 (by +1
for the losers) gives the ranking of the list in which the null changes were replaced
first. So in the gainers ranking a null coin never precedes a coin whose defined 24h
change is nonzero and above -1, and no coin whose defined change is below -1 precedes it;
in the losers ranking a null coin never precedes a coin whose defined 24h change is
nonzero and below +1, and no coin whose defined change is above +1 precedes it. -/
theorem rank_null_not_ahead (m : List Coin) (a b : Coin) (v : ℚ)
    (ha : a.price_change_percentage_24h = none)
    (hb : b.price_change_percentage_24h = some v) (hv : v ≠ 0) :
    (-1 < v → ¬ [a, b].Sublist (rankUp m)) ∧ (v < 1 → ¬ [a, b].Sublist (rankDown m))
    ∧ (v < -1 → ¬ [b, a].Sublist (rankUp m)) ∧ (1 < v → ¬ [b, a].Sublist (rankDown m))
    ∧ (rankUp m).map (nullAs (-1)) = rankUp (m.map (nullAs (-1)))
    ∧ (rankDown m).map (nullAs 1) = rankDown (m.map (nullAs 1)) := by
  refine ⟨?_, ?_, ?_, ?_, rankUp_nullAs m, rankDown_nullAs m⟩
  · intro h1 hs
    have h := pairwise_of_pair (rankUp_pairwise m) hs
    simp [keyUp, orElse, ha, hb, hv] at h
    linarith
  · intro h1 hs
    have h := pairwise_of_pair (rankDown_pairwise m) hs
    simp [keyDown, orElse, ha, hb, hv] at h
    linarith
  · intro h1 hs
    have h := pairwise_of_pair (rankUp_pairwise m) hs
    simp [keyUp, orElse, ha, hb, hv] at h
    linarith
  · intro h1 hs
    have h := pairwise_of_pair (rankDown_pairwise m) hs
    simp [keyDown, orElse, ha, hb, hv] at h
    linarith

theorem rank_null_not_ahead_witness :
    (¬ [coin24 "n" none, coin24 "d" (some (1/2))].Sublist
        (rankUp [coin24 "n" none, coin24 "d" (some (1/2))])
      ∧ ¬ [coin24 "n" none, coin24 "d" (some (1/2))].Sublist
        (rankDown [coin24 "n" none, coin24 "d" (some (1/2))]))
    ∧ ¬ [coin24 "d" (some (-2)), coin24 "n" none].Sublist
        (rankUp [coin24 "d" (some (-2)), coin24 "n" none])
    ∧ ¬ [coin24 "d" (some 2), coin24 "n" none].Sublist
        (rankDown [coin24 "d" (some 2), coin24 "n" none])
    ∧ (rankUp [coin24 "d" (some (-2)), coin24 "n" none]).map (nullAs (-1))
        = rankUp [nullAs (-1) (coin24 "d" (some (-2))), nullAs (-1) (coin24 "n" none)] :=
  ⟨⟨(rank_null_not_ahead [coin24 "n" none, coin24 "d" (some (1/2))] (coin24 "n" none)
        (coin24 "d" (some (1/2))) (1/2) rfl rfl (by norm_num)).1 (by norm_num),
      (rank_null_not_ahead [coin24 "n" none, coin24 "d" (some (1/2))] (coin24 "n" none)
        (coin24 "d" (some (1/2))) (1/2) rfl rfl (by norm_num)).2.1 (by norm_num)⟩,
    (rank_null_not_ahead [coin24 "d" (some (-2)), coin24 "n" none] (coin24 "n" none)
      (coin24 "d" (some (-2))) (-2) rfl rfl (by norm_num)).2.2.1 (by norm_num),
    (rank_null_not_ahead [coin24 "d" (some 2), coin24 "n" none] (coin24 "n" none)
      (coin24 "d" (some 2)) 2 rfl rfl (by norm_num)).2.2.2.1 (by norm_num),
    (rank_null_not_ahead [coin24 "d" (some (-2)), coin24 "n" none] (coin24 "n" none)
      (coin24 "d" (some (-2))) (-2) rfl rfl (by norm_num)).2.2.2.2.1⟩

/-- C3: in the gainers list `topUp` no null coin stands ahead of a coin with a defined
positive 24h change, and while a null coin is listed no such positive coin is left out of
the first five (neither as a later entry of the ranking nor as a coin of the input); the
same holds for the losers list `topDown` and coins with a defined negative change. -/
theorem top_null_not_ahead (m : List Coin) (a b : Coin) (v : ℚ)
    (ha : a.price_change_percentage_24h = none)
    (hb : b.price_change_percentage_24h = some v) :
    (0 < v → ¬ [a, b].Sublist (topUp m)
      ∧ (a ∈ topUp m → b ∉ (rankUp m).drop 5)
      ∧ (a ∈ topUp m → b ∈ m → b ∈ topUp m))
    ∧ (v < 0 → ¬ [a, b].Sublist (topDown m)
      ∧ (a ∈ topDown m → b ∉ (rankDown m).drop 5)
      ∧ (a ∈ topDown m → b ∈ m → b ∈ topDown m)) := by
  have hv0 : ∀ {w : ℚ}, (0 < w ∨ w < 0) → w ≠ 0 := by
    intro w hw
    rcases hw with hw | hw
    · exact ne_of_gt hw
    · exact ne_of_lt hw
  constructor
  · intro hv
    have hne : v ≠ 0 := hv0 (Or.inl hv)
    have hdrop : a ∈ topUp m → b ∉ (rankUp m).drop 5 := by
      intro hat hbd
      have h := pairwise_take_drop 5 (rankUp_pairwise m) hat hbd
      simp [keyUp, orElse, ha, hb, hne] at h
      linarith
    refine ⟨?_, hdrop, ?_⟩
    · intro hs
      have hs2 : [a, b].Sublist (rankUp m) := hs.trans (List.take_sublist 5 _)
      have h := pairwise_of_pair (rankUp_pairwise m) hs2
      simp [keyUp, orElse, ha, hb, hne] at h
      linarith
    · intro hat hbm
      have hbr : b ∈ rankUp m := (jsSort_perm cmpUp m).mem_iff.2 hbm
      rcases mem_take_or_drop 5 hbr with h | h
      · exact h
      · exact absurd h (hdrop hat)
  · intro hv
    have hne : v ≠ 0 := hv0 (Or.inr hv)
    have hdrop : a ∈ topDown m → b ∉ (rankDown m).drop 5 := by
      intro hat hbd
      have h := pairwise_take_drop 5 (rankDown_pairwise m) hat hbd
      simp [keyDown, orElse, ha, hb, hne] at h
      linarith
    refine ⟨?_, hdrop, ?_⟩
    · intro hs
      have hs2 : [a, b].Sublist (rankDown m) := hs.trans (List.take_sublist 5 _)
      have h := pairwise_of_pair (rankDown_pairwise m) hs2
      simp [keyDown, orElse, ha, hb, hne] at h
      linarith
    · intro hat hbm
      have hbr : b ∈ rankDown m := (jsSort_perm cmpDown m).mem_iff.2 hbm
      rcases mem_take_or_drop 5 hbr with h | h
      · exact h
      · exact absurd h (hdrop hat)


theorem top_null_not_ahead_witness :
    ¬ [coin24 "n" none, coin24 "d" (some 3)].Sublist
        (topUp [coin24 "n" none, coin24 "d" (some 3)])
    ∧ ¬ [coin24 "n" none, coin24 "d" (some (-3))].Sublist
        (topDown [coin24 "n" none, coin24 "d" (some (-3))]) :=
  ⟨((top_null_not_ahead [coin24 "n" none, coin24 "d" (some 3)] (coin24 "n" none)
      (coin24 "d" (some 3)) 3 rfl rfl).1 (by norm_num)).1,
    ((top_null_not_ahead [coin24 "n" none, coin24 "d" (some (-3))] (coin24 "n" none)
      (coin24 "d" (some (-3))) (-3) rfl rfl).2 (by norm_num)).1⟩

/-! ## Idea screens -/

theorem change7d_eq (x : Coin) : change7d x = chg7d x := by
  unfold change7d chg7d nullish
  cases x.price_change_percentage_7d_in_currency <;>
    cases x.price_change_percentage_7d <;> rfl

theorem momentum_pred_eq (toLowerCase : String → String) (T : List String) (x : Coin) :
    (onBinance toLowerCase (some T) x
      && pos x.price_change_percentage_1h_in_currency
      && decide (nullish x.price_change_percentage_24h 0 ≥ 5)
      && decide (change7d x ≥ 10)) = isMomentum toLowerCase T x := by
  rw [change7d_eq]
  unfold isMomentum onBinance binanceSet pos nullish chg1h chg24h
  cases x.price_change_percentage_1h_in_currency <;>
    cases x.price_change_percentage_24h <;>
    simp [Bool.and_assoc, Bool.decide_and]

theorem dip_pred_eq (toLowerCase : String → String) (T : List String) (x : Coin) :
    (onBinance toLowerCase (some T) x
      && decide (nullish x.price_change_percentage_24h 0 ≤ -7)
      && decide (change7d x < 0)) = isDip toLowerCase T x := by
  rw [change7d_eq]
  unfold isDip onBinance binanceSet nullish chg24h
  cases x.price_change_percentage_24h <;>
    simp [Bool.and_assoc, Bool.decide_and]

theorem reversal_pred_eq (toLowerCase : String → String) (T : List String) (x : Coin) :
    (onBinance toLowerCase (some T) x
      && neg x.price_change_percentage_24h
      && decide (nullish x.price_change_percentage_1h_in_currency 0 ≥ 1)
      && decide (change7d x > -3)) = isReversal toLowerCase T x := by
  rw [change7d_eq]
  unfold isReversal onBinance binanceSet neg nullish chg1h chg24h
  cases x.price_change_percentage_1h_in_currency <;>
    cases x.price_change_percentage_24h <;>
    simp [Bool.and_assoc, Bool.decide_and]

theorem mem_take_filter_append {α : Type} (p : α → Bool) (n : ℕ) (pre post : List α)
    (x : α) (hx : p x = true) (hn : (pre.filter p).length < n) :
    x ∈ ((pre ++ x :: post).filter p).take n := by
  rw [List.filter_append, List.filter_cons_of_pos hx, List.take_append_eq_append_take]
  apply List.mem_append_right
  have hpos : 0 < n - (pre.filter p).length := Nat.sub_pos_of_lt hn
  obtain ⟨k, hk⟩ := Nat.exists_eq_succ_of_ne_zero (Nat.pos_iff_ne_zero.1 hpos)
  rw [hk, List.take_succ_cons]
  exact List.mem_cons_self _ _

theorem generateSignalRow_coin (x : Coin) (action : String) :
    (generateSignalRow x action).coin = x := by
  unfold generateSignalRow
  split_ifs <;> rfl

theorem ideaCard_coins (title : String) (coins : List Coin) (action : String) :
    (ideaCard title coins action).rows.map (fun r => r.coin) = coins := by
  simp [ideaCard, List.map_map, Function.comp_def, generateSignalRow_coin]

/-- C4: for every coin list `m` and tradable set `T`, the Momentum, Dip and Reversal lists
of `renderIdeas` are the first 8 coins of `m`, in list order, satisfying the stated
predicate (missing changes count as 0; the 7d change is the in-currency field, else the
plain field, else 0), and these are the coins of the three rendered cards. No screen holds
a coin whose lower-cased symbol is absent from `T`, and a tradable coin with 1h = +0.5,
24h = +6 and 7d = +12 preceded in `m` by fewer than 8 Momentum matches is in Momentum. -/
theorem ideas_screens_exact (toLowerCase : String → String) (m : List Coin)
    (T : List String) :
    momentum toLowerCase m (some T) = (m.filter (isMomentum toLowerCase T)).take 8
    ∧ dip toLowerCase m (some T) = (m.filter (isDip toLowerCase T)).take 8
    ∧ reversal toLowerCase m (some T) = (m.filter (isReversal toLowerCase T)).take 8
    ∧ (∀ w : World, w.state.filtered = m → w.state.binanceTradable = some T →
        (renderIdeas toLowerCase w).els.ideas.map (fun h =>
            (h.momentum.rows.map (fun r => r.coin), h.dip.rows.map (fun r => r.coin),
              h.reversal.rows.map (fun r => r.coin)))
          = some ((m.filter (isMomentum toLowerCase T)).take 8,
              (m.filter (isDip toLowerCase T)).take 8,
              (m.filter (isReversal toLowerCase T)).take 8))
    ∧ (∀ x, x ∈ momentum toLowerCase m (some T) ∨ x ∈ dip toLowerCase m (some T)
          ∨ x ∈ reversal toLowerCase m (some T) → toLowerCase x.symbol ∈ T)
    ∧ (∀ pre x post, m = pre ++ x :: post → toLowerCase x.symbol ∈ T →
        x.price_change_percentage_1h_in_currency = some 0.5 →
        x.price_change_percentage_24h = some 6 →
        (x.price_change_percentage_7d_in_currency = some 12
          ∨ (x.price_change_percentage_7d_in_currency = none
              ∧ x.price_change_percentage_7d = some 12)) →
        (pre.filter (isMomentum toLowerCase T)).length < 8 →
        x ∈ momentum toLowerCase m (some T)) := by
  have hm : momentum toLowerCase m (some T)
      = (m.filter (isMomentum toLowerCase T)).take 8 := by
    unfold momentum
    congr 1
    exact List.filter_congr (fun x _ => momentum_pred_eq toLowerCase T x)
  have hd : dip toLowerCase m (some T) = (m.filter (isDip toLowerCase T)).take 8 := by
    unfold dip
    congr 1
    exact List.filter_congr (fun x _ => dip_pred_eq toLowerCase T x)
  have hr : reversal toLowerCase m (some T)
      = (m.filter (isReversal toLowerCase T)).take 8 := by
    unfold reversal
    congr 1
    exact List.filter_congr (fun x _ => reversal_pred_eq toLowerCase T x)
  refine ⟨hm, hd, hr, ?_, ?_, ?_⟩
  · intro w hf hb
    simp only [renderIdeas, Option.map_some', ideaCard_coins, hf, hb, hm, hd, hr]
  · intro x hx
    rw [hm, hd, hr] at hx
    rcases hx with hx | hx | hx
    · have h := (List.mem_filter.1 (List.mem_of_mem_take hx)).2
      simp only [isMomentum, decide_eq_true_eq] at h
      exact h.1
    · have h := (List.mem_filter.1 (List.mem_of_mem_take hx)).2
      simp only [isDip, decide_eq_true_eq] at h
      exact h.1
    · have h := (List.mem_filter.1 (List.mem_of_mem_take hx)).2
      simp only [isReversal, decide_eq_true_eq] at h
      exact h.1
  · intro pre x post hmx hT h1 h24 h7 hlt
    rw [hm, hmx]
    apply mem_take_filter_append _ _ _ _ _ _ hlt
    simp only [isMomentum, decide_eq_true_eq, chg1h, chg24h, chg7d, h1, h24]
    refine ⟨hT, by norm_num, by norm_num, ?_⟩
    rcases h7 with h7 | ⟨h7, h7p⟩
    · rw [h7]; norm_num
    · rw [h7, h7p]; norm_num

theorem ideas_screens_exact_witness :
    coinIdea "BTC" (some 0.5) (some 6) (some 12)
      ∈ momentum asciiLower [coinIdea "BTC" (some 0.5) (some 6) (some 12)] (some ["btc"]) :=
  (ideas_screens_exact asciiLower [coinIdea "BTC" (some 0.5) (some 6) (some 12)]
    ["btc"]).2.2.2.2.2 [] (coinIdea "BTC" (some 0.5) (some 6) (some 12)) [] rfl
    (by decide) rfl rfl (Or.inl rfl) (by decide)

theorem ratio_long (p : ℚ) (h : 0 < p) :
    (p * 1.10 - p) / (p - p * 0.95) = 2
    ∧ |p * 1.10 - p| / |p * 0.95 - p| = 2 := by
  have e1 : p * 1.10 - p = p * (1 / 10) := by norm_num; ring
  have e2 : p - p * 0.95 = p * (1 / 20) := by norm_num; ring
  have e3 : p * 0.95 - p = -(p * (1 / 20)) := by norm_num; ring
  have p10 : 0 < p * (1 / 10) := by positivity
  have p20 : 0 < p * (1 / 20) := by positivity
  rw [e1, e2, e3, abs_neg, abs_of_pos p10, abs_of_pos p20, mul_div_mul_left _ _ (ne_of_gt h)]
  norm_num

theorem ratio_short (p : ℚ) (h : 0 < p) :
    (p - p * 0.90) / (p * 1.05 - p) = 2
    ∧ |p * 0.90 - p| / |p * 1.05 - p| = 2 := by
  have e1 : p - p * 0.90 = p * (1 / 10) := by norm_num; ring
  have e2 : p * 1.05 - p = p * (1 / 20) := by norm_num; ring
  have e3 : p * 0.90 - p = -(p * (1 / 10)) := by norm_num; ring
  have p10 : 0 < p * (1 / 10) := by positivity
  have p20 : 0 < p * (1 / 20) := by positivity
  rw [e1, e2, e3, abs_neg, abs_of_pos p10, abs_of_pos p20, mul_div_mul_left _ _ (ne_of_gt h)]
  norm_num

/-- C5: for a coin with a positive price `p`, a Long row has take-profit `1.10 * p` and
stop-loss `0.95 * p`, a Short row has take-profit `0.90 * p` and stop-loss `1.05 * p`; in
both the ratio is `|take-profit - p| / |stop-loss - p|`, which is exactly 2, and the two
targets are displayed. A Wait row shows the dash for the ratio, the take-profit and the
stop-loss. -/
theorem signal_row_targets (x : Coin) (hp : 0 < x.current_price) :
    ((generateSignalRow x "Long").takeProfit = 1.10 * x.current_price
      ∧ (generateSignalRow x "Long").stopLoss = 0.95 * x.current_price
      ∧ (generateSignalRow x "Long").tpShown = some (1.10 * x.current_price)
      ∧ (generateSignalRow x "Long").slShown = some (0.95 * x.current_price)
      ∧ (generateSignalRow x "Long").rrRatio
          = some (|(generateSignalRow x "Long").takeProfit - x.current_price|
              / |(generateSignalRow x "Long").stopLoss - x.current_price|)
      ∧ (generateSignalRow x "Long").rrRatio = some 2)
    ∧ ((generateSignalRow x "Short").takeProfit = 0.90 * x.current_price
      ∧ (generateSignalRow x "Short").stopLoss = 1.05 * x.current_price
      ∧ (generateSignalRow x "Short").tpShown = some (0.90 * x.current_price)
      ∧ (generateSignalRow x "Short").slShown = some (1.05 * x.current_price)
      ∧ (generateSignalRow x "Short").rrRatio
          = some (|(generateSignalRow x "Short").takeProfit - x.current_price|
              / |(generateSignalRow x "Short").stopLoss - x.current_price|)
      ∧ (generateSignalRow x "Short").rrRatio = some 2)
    ∧ ((generateSignalRow x "Wait").rrRatio = none
      ∧ (generateSignalRow x "Wait").tpShown = none
      ∧ (generateSignalRow x "Wait").slShown = none) := by
  have hL : ("Long" : String) ≠ "Short" := by decide
  have hLW : ("Long" : String) ≠ "Wait" := by decide
  have hSW : ("Short" : String) ≠ "Wait" := by decide
  have hWS : ("Wait" : String) ≠ "Short" := by decide
  have hWL : ("Wait" : String) ≠ "Long" := by decide
  have rl := ratio_long x.current_price hp
  have rs := ratio_short x.current_price hp
  refine ⟨⟨?_, ?_, ?_, ?_, ?_, ?_⟩, ⟨?_, ?_, ?_, ?_, ?_, ?_⟩, ?_, ?_, ?_⟩
  · simp only [generateSignalRow, if_neg hL, if_true, mul_comm]
  · simp only [generateSignalRow, if_neg hL, if_true, mul_comm]
  · simp only [generateSignalRow, if_neg hL, if_true, mul_comm, ne_eq, hLW, not_false_eq_true]
  · simp only [generateSignalRow, if_neg hL, if_true, mul_comm, ne_eq, hLW, not_false_eq_true]
  · simp only [generateSignalRow, if_neg hL, if_true]
    rw [rl.1, rl.2]
  · simp only [generateSignalRow, if_neg hL, if_true]
    rw [rl.1]
  · simp only [generateSignalRow, if_true, mul_comm]
  · simp only [generateSignalRow, if_true, mul_comm]
  · simp only [generateSignalRow, if_true, mul_comm, ne_eq, hSW, not_false_eq_true]
  · simp only [generateSignalRow, if_true, mul_comm, ne_eq, hSW, not_false_eq_true]
  · simp only [generateSignalRow, if_true]
    rw [rs.1, rs.2]
  · simp only [generateSignalRow, if_true]
    rw [rs.1]
  · simp only [generateSignalRow, if_neg hWS, if_neg hWL]
  · simp [generateSignalRow, hWS, hWL]
  · simp [generateSignalRow, hWS, hWL]

theorem signal_row_targets_witness :
    0 < (coinIdea "btc" none none none).current_price
    ∧ (generateSignalRow (coinIdea "btc" none none none) "Long").rrRatio = some 2
    ∧ (generateSignalRow (coinIdea "btc" none none none) "Short").rrRatio = some 2 :=
  ⟨by norm_num [coinIdea],
    (signal_row_targets (coinIdea "btc" none none none)
      (by norm_num [coinIdea])).1.2.2.2.2.2,
    (signal_row_targets (coinIdea "btc" none none none)
      (by norm_num [coinIdea])).2.1.2.2.2.2.2⟩

/-! ## Favorites -/

theorem toggleFavorite_storage (id : String) (w : World) :
    (toggleFavorite id w).fx_favorites = toggleStored w.fx_favorites id := by
  unfold toggleFavorite renderTrending renderMovers renderFavorites
  dsimp only
  split_ifs <;> rfl

theorem contains_eq_true_iff (l : List String) (a : String) :
    l.contains a = true ↔ a ∈ l := by
  simp

theorem mem_toggle_list (favs : List String) (id j : String) :
    j ∈ (if favs.contains id = true then favs.filter (fun x => decide (x ≠ id))
          else favs ++ [id])
      ↔ (j ∈ favs ∧ j ≠ id) ∨ (j = id ∧ id ∉ favs) := by
  by_cases h : id ∈ favs
  · rw [if_pos ((contains_eq_true_iff favs id).2 h), List.mem_filter, decide_eq_true_eq]
    constructor
    · intro hj
      exact Or.inl hj
    · rintro (hj | hj)
      · exact hj
      · exact absurd h hj.2
  · rw [if_neg (fun hc => h ((contains_eq_true_iff favs id).1 hc)), List.mem_append,
      List.mem_singleton]
    constructor
    · rintro (hj | hj)
      · exact Or.inl ⟨hj, fun e => h (e ▸ hj)⟩
      · exact Or.inr ⟨hj, h⟩
    · rintro (hj | hj)
      · exact Or.inl hj.1
      · exact Or.inr hj.1

theorem mem_toggleStored (s : Stored) (id j : String) :
    j ∈ getFavorites (toggleStored s id)
      ↔ (j ∈ getFavorites s ∧ j ≠ id) ∨ (j = id ∧ id ∉ getFavorites s) :=
  mem_toggle_list (getFavorites s) id j

/-- C6: for every stored favorites value (a list of ids, possibly with repeats, or no
usable value) and every id, after two calls of `toggleFavorite(id)` every id `j` is a
favorite exactly when it was one before the first call. -/
theorem toggleFavorite_twice (w : World) (id j : String) :
    isFavorite (toggleFavorite id (toggleFavorite id w)).fx_favorites j
      = isFavorite w.fx_favorites j := by
  rw [toggleFavorite_storage, toggleFavorite_storage]
  unfold isFavorite
  rw [Bool.eq_iff_iff]
  rw [contains_eq_true_iff, contains_eq_true_iff, mem_toggleStored]
  simp only [mem_toggleStored]
  by_cases hj : j = id
  · subst hj
    by_cases hm : j ∈ getFavorites w.fx_favorites <;> simp [hm]
  · simp [hj]

/-- C7: the coins `renderFavorites` shows are the coins of `state.markets` whose id occurs
in the stored list: an order-preserving sublist of `state.markets` that keeps every
occurrence of such a coin and nothing else. They do not depend on the order or repetition
of the stored ids nor on `state.filtered`, and the favorites section is hidden exactly
when there is no such coin. For a stored JSON array `ids` the shown coins are the coins of
`state.markets` whose id is in `ids`; with nothing stored, or a value that does not parse,
the section is hidden. -/
theorem renderFavorites_view (w : World) :
    (if (renderFavorites w).els.favoritesSectionShown = some true
      then (renderFavorites w).els.favorites.getD [] else [])
        = w.state.markets.filter (fun x => decide (x.id ∈ getFavorites w.fx_favorites))
    ∧ ((renderFavorites w).els.favoritesSectionShown = some false
        ↔ w.state.markets.filter (fun x => decide (x.id ∈ getFavorites w.fx_favorites)) = [])
    ∧ ((renderFavorites w).els.favoritesSectionShown = some true
        ↔ w.state.markets.filter (fun x => decide (x.id ∈ getFavorites w.fx_favorites)) ≠ [])
    ∧ (favCoins w.state.markets w.fx_favorites).Sublist w.state.markets
    ∧ (∀ x, x ∈ favCoins w.state.markets w.fx_favorites
        ↔ x ∈ w.state.markets ∧ x.id ∈ getFavorites w.fx_favorites)
    ∧ (∀ x, x.id ∈ getFavorites w.fx_favorites →
        (favCoins w.state.markets w.fx_favorites).count x = w.state.markets.count x)
    ∧ (∀ ids, (∀ i, i ∈ ids ↔ i ∈ getFavorites w.fx_favorites) →
        (renderFavorites { w with fx_favorites := Stored.array ids }).els
          = (renderFavorites w).els)
    ∧ (∀ f, (renderFavorites { w with state := { w.state with filtered := f } }).els
          = (renderFavorites w).els)
    ∧ (∀ ids, w.fx_favorites = Stored.array ids →
        (if (renderFavorites w).els.favoritesSectionShown = some true
          then (renderFavorites w).els.favorites.getD [] else [])
            = w.state.markets.filter (fun x => decide (x.id ∈ ids))
        ∧ ((renderFavorites w).els.favoritesSectionShown = some false
            ↔ w.state.markets.filter (fun x => decide (x.id ∈ ids)) = [])
        ∧ ((renderFavorites w).els.favoritesSectionShown = some true
            ↔ ∃ x, x ∈ w.state.markets ∧ x.id ∈ ids))
    ∧ (w.fx_favorites = Stored.absent ∨ w.fx_favorites = Stored.unparsable →
        (renderFavorites w).els.favoritesSectionShown = some false) := by
  have hfc : favCoins w.state.markets w.fx_favorites
      = w.state.markets.filter (fun x => decide (x.id ∈ getFavorites w.fx_favorites)) := by
    unfold favCoins
    exact List.filter_congr (fun x _ => by simp)
  refine ⟨?_, ?_, ?_, ?_, ?_, ?_, ?_, ?_, ?_, ?_⟩
  · rw [← hfc]
    unfold renderFavorites
    by_cases h : (favCoins w.state.markets w.fx_favorites).length = 0
    · simp [h, List.length_eq_zero.1 h]
    · simp [h]
  · rw [← hfc]
    unfold renderFavorites
    by_cases h : (favCoins w.state.markets w.fx_favorites).length = 0
    · simp [h, List.length_eq_zero.1 h]
    · simp [h, List.length_eq_zero.not.1 h]
  · rw [← hfc]
    unfold renderFavorites
    by_cases h : (favCoins w.state.markets w.fx_favorites).length = 0
    · simp [h, List.length_eq_zero.1 h]
    · simp [h, List.length_eq_zero.not.1 h]
  · exact List.filter_sublist _
  · intro x
    rw [hfc, List.mem_filter, decide_eq_true_eq]
  · intro x hx
    rw [hfc, List.count_filter]
    simpa using hx
  · intro ids hids
    have e : favCoins w.state.markets (Stored.array ids)
        = favCoins w.state.markets w.fx_favorites := by
      unfold favCoins
      apply List.filter_congr
      intro x _
      rw [Bool.eq_iff_iff]
      rw [contains_eq_true_iff, contains_eq_true_iff]
      exact hids x.id
    unfold renderFavorites
    simp only [e]
    split_ifs <;> rfl
  · intro f
    unfold renderFavorites
    dsimp only
    split_ifs <;> rfl
  · intro ids hs
    have hfc2 : favCoins w.state.markets w.fx_favorites
        = w.state.markets.filter (fun x => decide (x.id ∈ ids)) := by
      rw [hfc, hs]
      rfl
    have hne : w.state.markets.filter (fun x => decide (x.id ∈ ids)) ≠ []
        ↔ ∃ x, x ∈ w.state.markets ∧ x.id ∈ ids := by
      constructor
      · intro hn
        obtain ⟨x, hx⟩ := List.exists_mem_of_ne_nil _ hn
        have hm := List.mem_filter.1 hx
        exact ⟨x, hm.1, of_decide_eq_true hm.2⟩
      · rintro ⟨x, hx, hi⟩
        exact List.ne_nil_of_mem (List.mem_filter.2 ⟨hx, decide_eq_true hi⟩)
    rw [← hne, ← hfc2]
    unfold renderFavorites
    by_cases h : (favCoins w.state.markets w.fx_favorites).length = 0
    · simp [h, List.length_eq_zero.1 h]
    · simp [h, List.length_eq_zero.not.1 h]
  · intro hs
    have he : favCoins w.state.markets w.fx_favorites = [] := by
      unfold favCoins
      rcases hs with hs | hs <;> rw [hs] <;> simp [getFavorites]
    unfold renderFavorites
    simp [he]

theorem renderFavorites_view_witness :
    (if (renderFavorites favWorld).els.favoritesSectionShown = some true
      then (renderFavorites favWorld).els.favorites.getD [] else [])
        = [coin24 "a" (some 1), coin24 "c" none]
    ∧ (renderFavorites favWorld).els.favoritesSectionShown = some true :=
  ⟨((renderFavorites_view favWorld).2.2.2.2.2.2.2.2.1 ["c", "zz", "a", "c"] rfl).1.trans
      (by decide!),
    ((renderFavorites_view favWorld).2.2.2.2.2.2.2.2.1 ["c", "zz", "a", "c"] rfl).2.2.2
      ⟨coin24 "a" (some 1), by decide!, by decide⟩⟩


/-! ## News -/

theorem dedupSeen_eq (seen : List String) (l : List NewsItem) :
    dedupSeen seen l = (dedupByTitle l).filter (fun j => !seen.contains j.title) := by
  induction l generalizing seen with
  | nil => rfl
  | cons i rest ih =>
    unfold dedupSeen dedupByTitle
    by_cases h : i.title ∈ seen
    · have hc : seen.contains i.title = true := (contains_eq_true_iff seen i.title).2 h
      rw [if_pos hc, ih seen, List.filter_cons_of_neg (by simp [h]), List.filter_filter]
      apply List.filter_congr
      intro j _
      by_cases hj : j.title = i.title
      · simp [hj, h]
      · simp [hj]
    · have hc : ¬ seen.contains i.title = true :=
        fun hc => h ((contains_eq_true_iff seen i.title).1 hc)
      rw [if_neg hc, ih (i.title :: seen), List.filter_cons_of_pos (by simp [h]),
        List.filter_filter]
      congr 1
      apply List.filter_congr
      intro j _
      by_cases hj : j.title = i.title
      · simp [hj]
      · simp [hj]

theorem dedupByTitle_pairwise (l : List NewsItem) :
    (dedupByTitle l).Pairwise (fun a b => a.title ≠ b.title) := by
  induction l with
  | nil => exact List.Pairwise.nil
  | cons i rest ih =>
    unfold dedupByTitle
    refine List.Pairwise.cons ?_ (ih.filter _)
    intro j hj
    have h := (List.mem_filter.1 hj).2
    simp only [ne_eq, decide_not, Bool.not_eq_true', decide_eq_false_iff_not] at h
    exact fun e => h e.symm

theorem dedupByTitle_first (l : List NewsItem) :
    ∀ j ∈ dedupByTitle l, l.find? (fun i => i.title == j.title) = some j := by
  induction l with
  | nil => intro j hj; simp [dedupByTitle] at hj
  | cons i rest ih =>
    intro j hj
    unfold dedupByTitle at hj
    rcases List.mem_cons.1 hj with hj | hj
    · subst hj
      simp
    · have hm := List.mem_filter.1 hj
      have hne : ¬ j.title = i.title := by simpa using hm.2
      have hne2 : (i.title == j.title) = false := by
        simpa using fun e : i.title = j.title => hne e.symm
      rw [List.find?_cons, hne2]
      exact ih j hm.1

theorem news_sorted (l : List NewsItem) :
    (jsSort cmpNews l).Pairwise (fun a b => b.pubDate ≤ a.pubDate) := by
  have h := jsSort_pairwise cmpNews (fun a => (a.pubDate : ℚ))
    (fun a b => by simp [cmpNews]) l
  exact List.Pairwise.imp (fun {a b} hab => by exact_mod_cast hab) h

/-- C8: for two fetched feeds `f1`, `f2`, the displayed headlines are the first 10 items of
the concatenation `f1 ++ f2` deduplicated by exact title (of equal titles the first item of
`f1 ++ f2` is the one kept) and then sorted by publish date descending (the sorted list is a
rearrangement of the deduplicated one). The displayed list has at most 10 entries, pairwise
distinct titles, and publish dates that never increase. -/
theorem loadNews_displayed (f1 f2 : List NewsItem) :
    loadNews [Fetched.ok f1, Fetched.ok f2]
      = (jsSort cmpNews (dedupByTitle (f1 ++ f2))).take 10
    ∧ (∀ j ∈ dedupByTitle (f1 ++ f2),
        (f1 ++ f2).find? (fun i => i.title == j.title) = some j)
    ∧ (jsSort cmpNews (dedupByTitle (f1 ++ f2))).Perm (dedupByTitle (f1 ++ f2))
    ∧ (jsSort cmpNews (dedupByTitle (f1 ++ f2))).Pairwise
        (fun a b => b.pubDate ≤ a.pubDate)
    ∧ (loadNews [Fetched.ok f1, Fetched.ok f2]).length ≤ 10
    ∧ (loadNews [Fetched.ok f1, Fetched.ok f2]).Pairwise (fun a b => a.title ≠ b.title)
    ∧ (loadNews [Fetched.ok f1, Fetched.ok f2]).Pairwise
        (fun a b => b.pubDate ≤ a.pubDate) := by
  have hd : dedupSeen [] (collectItems [Fetched.ok f1, Fetched.ok f2])
      = dedupByTitle (f1 ++ f2) := by
    rw [dedupSeen_eq]
    simp [collectItems]
  have he : loadNews [Fetched.ok f1, Fetched.ok f2]
      = (jsSort cmpNews (dedupByTitle (f1 ++ f2))).take 10 := by
    unfold loadNews
    rw [hd]
  have hperm := jsSort_perm cmpNews (dedupByTitle (f1 ++ f2))
  have htitles : (jsSort cmpNews (dedupByTitle (f1 ++ f2))).Pairwise
      (fun a b => a.title ≠ b.title) :=
    (hperm.pairwise_iff (fun {x y} (h : x.title ≠ y.title) => h.symm)).2
      (dedupByTitle_pairwise _)
  refine ⟨he, dedupByTitle_first _, hperm, news_sorted _, ?_, ?_, ?_⟩
  · rw [he, List.length_take]
    exact Nat.min_le_left _ _
  · rw [he]
    exact htitles.sublist (List.take_sublist _ _)
  · rw [he]
    exact (news_sorted _).sublist (List.take_sublist _ _)

/-! ## Refresh -/

/-- C9: if at least one of the three primary fetches fails, `loadAll` throws and `state`
(`global`, `markets`, `filtered`, `trending`, `binanceTradable`, and `vs`) is what it was
before the call; the only requests issued are the three primary ones, so the
tradable-symbol request is not attempted. -/
theorem loadAll_all_or_nothing (toLowerCase : String → String) (net : Network) (w : World)
    (h : (∃ e, net.global = Fetched.failed e) ∨ (∃ e, net.markets = Fetched.failed e)
      ∨ (∃ e, net.trending = Fetched.failed e)) :
    (∃ e, (loadAll toLowerCase net w).1 = Except.error e)
    ∧ (loadAll toLowerCase net w).2.state = w.state
    ∧ (loadAll toLowerCase net w).2.requests
        = w.requests ++ [Request.geckoGlobal, Request.geckoMarkets w.state.vs,
            Request.geckoTrending]
    ∧ Request.binanceExchangeInfo ∉ [Request.geckoGlobal, Request.geckoMarkets w.state.vs,
        Request.geckoTrending] := by
  have hlast : Request.binanceExchangeInfo ∉ [Request.geckoGlobal,
      Request.geckoMarkets w.state.vs, Request.geckoTrending] := by
    simp
  unfold loadAll
  rcases hg : net.global with g | eg
  · rcases hm : net.markets with m | em
    · rcases ht : net.trending with t | et
      · rcases h with ⟨e, he⟩ | ⟨e, he⟩ | ⟨e, he⟩
        · rw [hg] at he; cases he
        · rw [hm] at he; cases he
        · rw [ht] at he; cases he
      · exact ⟨⟨et, rfl⟩, rfl, rfl, hlast⟩
    · exact ⟨⟨em, rfl⟩, rfl, rfl, hlast⟩
  · exact ⟨⟨eg, rfl⟩, rfl, rfl, hlast⟩

theorem loadAll_all_or_nothing_witness :
    (∃ e, (loadAll asciiLower netGlobalFails initWorld).1 = Except.error e)
    ∧ (loadAll asciiLower netGlobalFails initWorld).2.state = initWorld.state
    ∧ (loadAll asciiLower netGlobalFails initWorld).2.requests
        = initWorld.requests ++ [Request.geckoGlobal,
            Request.geckoMarkets initWorld.state.vs, Request.geckoTrending]
    ∧ Request.binanceExchangeInfo ∉ [Request.geckoGlobal,
        Request.geckoMarkets initWorld.state.vs, Request.geckoTrending] :=
  loadAll_all_or_nothing asciiLower netGlobalFails initWorld (Or.inl ⟨"HTTP 500", rfl⟩)

theorem renderFavorites_movers (w : World) :
    (renderFavorites w).els.movers = w.els.movers := by
  unfold renderFavorites
  dsimp only
  split_ifs <;> rfl

theorem loadAllCommit_movers (toLowerCase : String → String) (net : Network) (w1 : World)
    (g : GlobalDoc) (m : List Coin) (t : TrendingDoc) :
    ∃ vs up down, (loadAllCommit toLowerCase net w1 g m t).els.movers
      = some (MoversHtml.lists vs up down) := by
  unfold loadAllCommit
  dsimp only
  split_ifs
  · rw [renderFavorites_movers]
    exact ⟨_, _, _, rfl⟩
  · show ∃ vs up down, (renderFavorites _).els.movers = _
    rw [renderFavorites_movers]
    exact ⟨_, _, _, rfl⟩

theorem loadAll_ok_iff (toLowerCase : String → String) (net : Network) (w : World) :
    (loadAll toLowerCase net w).1 = Except.ok ()
      ↔ ∃ g m t, net.global = Fetched.ok g ∧ net.markets = Fetched.ok m
          ∧ net.trending = Fetched.ok t
          ∧ (loadAll toLowerCase net w).2
              = loadAllCommit toLowerCase net (loadAllStart w) g m t := by
  unfold loadAll
  rcases hg : net.global with g | eg
  · rcases hm : net.markets with m | em
    · rcases ht : net.trending with t | et
      · simp
      · simp
    · simp
  · simp

theorem loadAll_movers_of_ok (toLowerCase : String → String) (net : Network) (w : World)
    (h : (loadAll toLowerCase net w).1 = Except.ok ()) :
    ∃ vs up down, (loadAll toLowerCase net w).2.els.movers
      = some (MoversHtml.lists vs up down) := by
  obtain ⟨g, m, t, _, _, _, hw⟩ := (loadAll_ok_iff toLowerCase net w).1 h
  rw [hw]
  exact loadAllCommit_movers toLowerCase net _ g m t

/-- C10 (as stated, refuted): from the initial world a first `loadAll` succeeds and renders
the movers lists; a second `loadAll` whose global-stats fetch fails leaves `els.movers`
holding the "Loading movers..." placeholder, not the contents it had before the call. -/
theorem loadAll_failed_movers_changed :
    (loadAll asciiLower netOk initWorld).1 = Except.ok ()
    ∧ netGlobalFails.global = Fetched.failed "HTTP 500"
    ∧ (loadAll asciiLower netGlobalFails
          (loadAll asciiLower netOk initWorld).2).2.els.movers
        = some MoversHtml.loading
    ∧ (loadAll asciiLower netGlobalFails
          (loadAll asciiLower netOk initWorld).2).2.els.movers
        ≠ (loadAll asciiLower netOk initWorld).2.els.movers := by
  refine ⟨rfl, rfl, rfl, ?_⟩
  decide!

/-- C10 (amended): after a successful refresh, a `loadAll` whose global-stats fetch fails
leaves the snapshot, trending, ideas and favorites containers (with the visibility of the
snapshot and of the favorites section, and the two notes) identical to what they were
before the call, while the movers container, which held the rendered lists, is replaced by
the "Loading movers..." placeholder. -/
theorem loadAll_failed_views (toLowerCase : String → String) (net1 net2 : Network)
    (w0 : World) (e : String)
    (h1 : (loadAll toLowerCase net1 w0).1 = Except.ok ())
    (h2 : net2.global = Fetched.failed e) :
    (loadAll toLowerCase net2 (loadAll toLowerCase net1 w0).2).2.els
        = { (loadAll toLowerCase net1 w0).2.els with movers := some MoversHtml.loading }
    ∧ (∃ vs up down, (loadAll toLowerCase net1 w0).2.els.movers
        = some (MoversHtml.lists vs up down)) := by
  refine ⟨?_, loadAll_movers_of_ok toLowerCase net1 w0 h1⟩
  generalize (loadAll toLowerCase net1 w0).2 = w1
  unfold loadAll
  rw [h2]
  rfl

theorem loadAll_failed_views_witness :
    (loadAll asciiLower netGlobalFails (loadAll asciiLower netOk initWorld).2).2.els
        = { (loadAll asciiLower netOk initWorld).2.els with
            movers := some MoversHtml.loading }
    ∧ (∃ vs up down, (loadAll asciiLower netOk initWorld).2.els.movers
        = some (MoversHtml.lists vs up down)) :=
  loadAll_failed_views asciiLower netOk netGlobalFails initWorld "HTTP 500" rfl rfl

/-! ## Best-effort tradable symbols -/

theorem screens_of_empty_set (toLowerCase : String → String) (m : List Coin) :
    momentum toLowerCase m (some []) = [] ∧ dip toLowerCase m (some []) = []
      ∧ reversal toLowerCase m (some []) = [] := by
  simp [momentum, dip, reversal, onBinance, binanceSet]

theorem renderFavorites_state (w : World) : (renderFavorites w).state = w.state := by
  unfold renderFavorites
  dsimp only
  split_ifs <;> rfl

theorem renderFavorites_ideas (w : World) :
    (renderFavorites w).els.ideas = w.els.ideas := by
  unfold renderFavorites
  dsimp only
  split_ifs <;> rfl

theorem renderSnapshot_state (w : World) : (renderSnapshot w).state = w.state := by
  unfold renderSnapshot
  cases w.state.global <;> rfl

theorem loadAllCommit_state (toLowerCase : String → String) (net : Network) (w1 : World)
    (g : GlobalDoc) (m : List Coin) (t : TrendingDoc) :
    (loadAllCommit toLowerCase net w1 g m t).state
      = (getBinanceSymbols toLowerCase net { w1 with state := { w1.state with
          global := g.data
          markets := m
          filtered := m
          trending := match t.coins with
            | some cs => cs.map (fun c => c.item)
            | none => [] } }).state := by
  unfold loadAllCommit
  dsimp only
  split_ifs
  · rw [renderFavorites_state]
    show (renderSnapshot _).state = _
    rw [renderSnapshot_state]
  · show (renderFavorites _).state = _
    rw [renderFavorites_state]
    show (renderSnapshot _).state = _
    rw [renderSnapshot_state]

theorem loadAllCommit_ideas (toLowerCase : String → String) (net : Network) (w1 : World)
    (g : GlobalDoc) (m : List Coin) (t : TrendingDoc) :
    (loadAllCommit toLowerCase net w1 g m t).els.ideas
      = some
        { vs := (loadAllCommit toLowerCase net w1 g m t).state.vs
          momentum := ideaCard "Momentum Longs"
            (momentum toLowerCase (loadAllCommit toLowerCase net w1 g m t).state.filtered
              (loadAllCommit toLowerCase net w1 g m t).state.binanceTradable) "Long"
          dip := ideaCard "Dip Shorts"
            (dip toLowerCase (loadAllCommit toLowerCase net w1 g m t).state.filtered
              (loadAllCommit toLowerCase net w1 g m t).state.binanceTradable) "Short"
          reversal := ideaCard "Reversal Watch"
            (reversal toLowerCase (loadAllCommit toLowerCase net w1 g m t).state.filtered
              (loadAllCommit toLowerCase net w1 g m t).state.binanceTradable) "Wait" } := by
  rw [loadAllCommit_state]
  unfold loadAllCommit
  dsimp only
  split_ifs
  · rw [renderFavorites_ideas]
    show some _ = some _
    simp only [renderTrending, renderMovers, renderSnapshot_state]
  · show (renderFavorites _).els.ideas = _
    rw [renderFavorites_ideas]
    show some _ = some _
    simp only [renderTrending, renderMovers, renderSnapshot_state]

theorem getBinanceSymbols_failed (toLowerCase : String → String) (net : Network) (w : World)
    (hc : w.state.binanceTradable = none)
    (hx : (∃ e, net.exchangeInfo = Fetched.failed e) ∨ net.exchangeInfo = Fetched.ok none) :
    (getBinanceSymbols toLowerCase net w).state = { w.state with binanceTradable := some [] }
    ∧ (getBinanceSymbols toLowerCase net w).requests
        = w.requests ++ [Request.binanceExchangeInfo] := by
  unfold getBinanceSymbols
  rw [hc]
  rcases hx with ⟨e, he⟩ | he
  · rw [he]
    exact ⟨rfl, rfl⟩
  · rw [he]
    exact ⟨rfl, rfl⟩

/-- C11: when no tradable-symbol set is cached and the three primary fetches succeed, a
failed exchange symbol fetch (transport error or unparsable JSON, or a body without a
symbols list) does not make `loadAll` throw: the new global stats, coin list and trending
list are committed, `state.binanceTradable` is the empty set, and the Momentum, Dip and
Reversal cards rendered by this refresh have no rows. -/
theorem loadAll_exchange_failure (toLowerCase : String → String) (net : Network) (w : World)
    (g : GlobalDoc) (m : List Coin) (t : TrendingDoc)
    (hc : w.state.binanceTradable = none)
    (hg : net.global = Fetched.ok g) (hm : net.markets = Fetched.ok m)
    (ht : net.trending = Fetched.ok t)
    (hx : (∃ e, net.exchangeInfo = Fetched.failed e) ∨ net.exchangeInfo = Fetched.ok none) :
    (loadAll toLowerCase net w).1 = Except.ok ()
    ∧ (loadAll toLowerCase net w).2.state
        = { vs := w.state.vs
            markets := m
            global := g.data
            trending := (match t.coins with
              | some cs => cs.map (fun c => c.item)
              | none => [])
            filtered := m
            binanceTradable := some [] }
    ∧ (loadAll toLowerCase net w).2.els.ideas
        = some
          { vs := w.state.vs
            momentum := { title := "Momentum Longs", rows := [] }
            dip := { title := "Dip Shorts", rows := [] }
            reversal := { title := "Reversal Watch", rows := [] } } := by
  have hl : loadAll toLowerCase net w
      = (Except.ok (), loadAllCommit toLowerCase net (loadAllStart w) g m t) := by
    unfold loadAll
    rw [hg, hm, ht]
  have hs : (loadAllCommit toLowerCase net (loadAllStart w) g m t).state
      = { vs := w.state.vs
          markets := m
          global := g.data
          trending := (match t.coins with
            | some cs => cs.map (fun c => c.item)
            | none => [])
          filtered := m
          binanceTradable := some [] } := by
    have h2 := getBinanceSymbols_failed toLowerCase net
      { loadAllStart w with state := { (loadAllStart w).state with
          global := g.data
          markets := m
          filtered := m
          trending := match t.coins with
            | some cs => cs.map (fun c => c.item)
            | none => [] } } hc hx
    rw [loadAllCommit_state]
    exact h2.1
  refine ⟨by rw [hl], by rw [hl]; exact hs, ?_⟩
  rw [hl]
  show (loadAllCommit toLowerCase net (loadAllStart w) g m t).els.ideas = _
  rw [loadAllCommit_ideas, hs]
  have he := screens_of_empty_set toLowerCase m
  simp only [he.1, he.2.1, he.2.2, ideaCard, List.map_nil]

theorem loadAll_exchange_failure_witness :
    (loadAll asciiLower { netOk with exchangeInfo := Fetched.failed "Failed to fetch" }
        initWorld).1 = Except.ok ()
    ∧ (loadAll asciiLower { netOk with exchangeInfo := Fetched.failed "Failed to fetch" }
        initWorld).2.state.binanceTradable = some []
    ∧ (loadAll asciiLower { netOk with exchangeInfo := Fetched.failed "Failed to fetch" }
        initWorld).2.els.ideas
        = some
          { vs := "usd"
            momentum := { title := "Momentum Longs", rows := [] }
            dip := { title := "Dip Shorts", rows := [] }
            reversal := { title := "Reversal Watch", rows := [] } } :=
  have h := loadAll_exchange_failure asciiLower
    { netOk with exchangeInfo := Fetched.failed "Failed to fetch" } initWorld
    { data := none } [coin24 "a" (some 1), coin24 "b" (some (-1))] { coins := none }
    rfl rfl rfl rfl (Or.inl ⟨"Failed to fetch", rfl⟩)
  ⟨h.1, by rw [h.2.1], h.2.2⟩

/-! ## Cookie consent -/

/-- C12: from every prior consent state, accept-all leaves analytics = true and
marketing = false, reject-all leaves both false, and save-preferences leaves analytics equal
to the checkbox value (false when there is none) and marketing = false; each keeps the prior
`necessary` and `version`, and stores under the consent key the JSON of the resulting
record. This holds in particular for a state that `init` loaded from a stored record
with marketing = true. -/
theorem consent_actions (m : ConsentManager.Manager) (now : String) (checked : Option Bool)
    (stored : ConsentManager.Patch) :
    ((ConsentManager.acceptAll now m).state.analytics = true
      ∧ (ConsentManager.acceptAll now m).state.marketing = false
      ∧ (ConsentManager.acceptAll now m).state.necessary = m.state.necessary
      ∧ (ConsentManager.acceptAll now m).state.version = m.state.version
      ∧ (ConsentManager.acceptAll now m).stored = ConsentManager.StoredConsent.json
          (ConsentManager.stringify (ConsentManager.acceptAll now m).state))
    ∧ ((ConsentManager.rejectAll now m).state.analytics = false
      ∧ (ConsentManager.rejectAll now m).state.marketing = false
      ∧ (ConsentManager.rejectAll now m).state.necessary = m.state.necessary
      ∧ (ConsentManager.rejectAll now m).state.version = m.state.version
      ∧ (ConsentManager.rejectAll now m).stored = ConsentManager.StoredConsent.json
          (ConsentManager.stringify (ConsentManager.rejectAll now m).state))
    ∧ ((ConsentManager.savePreferences checked now m).state.analytics = checked.getD false
      ∧ (ConsentManager.savePreferences checked now m).state.marketing = false
      ∧ (ConsentManager.savePreferences checked now m).state.necessary = m.state.necessary
      ∧ (ConsentManager.savePreferences checked now m).state.version = m.state.version
      ∧ (ConsentManager.savePreferences checked now m).stored
          = ConsentManager.StoredConsent.json
            (ConsentManager.stringify (ConsentManager.savePreferences checked now m).state))
    ∧ (stored.marketing = some true →
        (ConsentManager.init
          { m with stored := ConsentManager.StoredConsent.json stored }).state.marketing = true
        ∧ (ConsentManager.acceptAll now (ConsentManager.init
            { m with stored := ConsentManager.StoredConsent.json stored })).state.marketing
            = false
        ∧ (ConsentManager.acceptAll now (ConsentManager.init
            { m with stored := ConsentManager.StoredConsent.json stored })).state.analytics
            = true) := by
  refine ⟨⟨rfl, rfl, rfl, rfl, rfl⟩, ⟨rfl, rfl, rfl, rfl, rfl⟩, ⟨rfl, rfl, rfl, rfl, rfl⟩, ?_⟩
  intro h
  refine ⟨?_, rfl, rfl⟩
  simp [ConsentManager.init, ConsentManager.spread, h]

theorem consent_actions_witness :
    (ConsentManager.init
      { state := ConsentManager.defaultState
        stored := ConsentManager.StoredConsent.json
          (ConsentManager.stringify { ConsentManager.defaultState with marketing := true })
        bannerShown := false
        modalShown := false }).state.marketing = true
    ∧ (ConsentManager.acceptAll "2024-01-01T00:00:00.000Z" (ConsentManager.init
      { state := ConsentManager.defaultState
        stored := ConsentManager.StoredConsent.json
          (ConsentManager.stringify { ConsentManager.defaultState with marketing := true })
        bannerShown := false
        modalShown := false })).state.marketing = false
    ∧ (ConsentManager.acceptAll "2024-01-01T00:00:00.000Z" (ConsentManager.init
      { state := ConsentManager.defaultState
        stored := ConsentManager.StoredConsent.json
          (ConsentManager.stringify { ConsentManager.defaultState with marketing := true })
        bannerShown := false
        modalShown := false })).state.analytics = true :=
  (consent_actions
    { state := ConsentManager.defaultState
      stored := ConsentManager.StoredConsent.absent
      bannerShown := false
      modalShown := false }
    "2024-01-01T00:00:00.000Z" none
    (ConsentManager.stringify { ConsentManager.defaultState with marketing := true })).2.2.2 rfl

/-! ## Disjoint screens -/

theorem mem_momentum (toLowerCase : String → String) (m : List Coin)
    (bt : Option (List String)) (x : Coin) (h : x ∈ momentum toLowerCase m bt) :
    x ∈ m ∧ 5 ≤ nullish x.price_change_percentage_24h 0 := by
  have hf := List.mem_filter.1 (List.mem_of_mem_take h)
  refine ⟨hf.1, ?_⟩
  have hp := hf.2
  simp only [Bool.and_eq_true, decide_eq_true_eq] at hp
  exact hp.1.2

theorem mem_dip (toLowerCase : String → String) (m : List Coin)
    (bt : Option (List String)) (x : Coin) (h : x ∈ dip toLowerCase m bt) :
    x ∈ m ∧ nullish x.price_change_percentage_24h 0 ≤ -7 := by
  have hf := List.mem_filter.1 (List.mem_of_mem_take h)
  refine ⟨hf.1, ?_⟩
  have hp := hf.2
  simp only [Bool.and_eq_true, decide_eq_true_eq] at hp
  exact hp.1.2

theorem neg_nullish (v : Option ℚ) (h : neg v = true) : nullish v 0 < 0 := by
  cases v with
  | none => simp [neg] at h
  | some x => simpa [neg, nullish] using h

theorem mem_reversal (toLowerCase : String → String) (m : List Coin)
    (bt : Option (List String)) (x : Coin) (h : x ∈ reversal toLowerCase m bt) :
    x ∈ m ∧ nullish x.price_change_percentage_24h 0 < 0 := by
  have hf := List.mem_filter.1 (List.mem_of_mem_take h)
  refine ⟨hf.1, ?_⟩
  have hp := hf.2
  simp only [Bool.and_eq_true, decide_eq_true_eq] at hp
  exact neg_nullish _ hp.1.1.2

/-- C14: for every coin list and every tradable-symbol set (cached or not), no coin of the
Momentum list of `renderIdeas` is in the Dip list or in the Reversal list, and the same
holds for the coins of the three cards one call of `renderIdeas` renders; when the ids of
the coin list are pairwise distinct, no id of the Momentum list is an id of the Dip list
or of the Reversal list. -/
theorem momentum_disjoint (toLowerCase : String → String) (m : List Coin)
    (bt : Option (List String)) :
    (∀ x, x ∈ momentum toLowerCase m bt →
        x ∉ dip toLowerCase m bt ∧ x ∉ reversal toLowerCase m bt)
    ∧ (∀ w : World, w.state.filtered = m → w.state.binanceTradable = bt →
        ∀ h, (renderIdeas toLowerCase w).els.ideas = some h →
        ∀ r ∈ h.momentum.rows, (∀ r2 ∈ h.dip.rows, r.coin ≠ r2.coin)
          ∧ (∀ r2 ∈ h.reversal.rows, r.coin ≠ r2.coin))
    ∧ ((m.map (fun x => x.id)).Nodup → ∀ x, x ∈ momentum toLowerCase m bt →
        ∀ y, y ∈ dip toLowerCase m bt ∨ y ∈ reversal toLowerCase m bt → x.id ≠ y.id) := by
  have hd : ∀ x, x ∈ momentum toLowerCase m bt →
      x ∉ dip toLowerCase m bt ∧ x ∉ reversal toLowerCase m bt := by
    intro x hx
    have h5 := (mem_momentum toLowerCase m bt x hx).2
    constructor
    · intro hy
      have h7 := (mem_dip toLowerCase m bt x hy).2
      linarith
    · intro hy
      have h0 := (mem_reversal toLowerCase m bt x hy).2
      linarith
  refine ⟨hd, ?_, ?_⟩
  · intro w hf hb h hh r hr
    have hi : h = { vs := w.state.vs
                    momentum := ideaCard "Momentum Longs" (momentum toLowerCase m bt) "Long"
                    dip := ideaCard "Dip Shorts" (dip toLowerCase m bt) "Short"
                    reversal := ideaCard "Reversal Watch" (reversal toLowerCase m bt)
                      "Wait" } := by
      have h2 : (renderIdeas toLowerCase w).els.ideas = some
          { vs := w.state.vs
            momentum := ideaCard "Momentum Longs" (momentum toLowerCase m bt) "Long"
            dip := ideaCard "Dip Shorts" (dip toLowerCase m bt) "Short"
            reversal := ideaCard "Reversal Watch" (reversal toLowerCase m bt) "Wait" } := by
        simp only [renderIdeas, hf, hb]
      rw [h2] at hh
      exact (Option.some.inj hh).symm
    have hrows : ∀ (title action : String) (coins : List Coin) (q : SignalRow),
        q ∈ (ideaCard title coins action).rows → q.coin ∈ coins := by
      intro title action coins q hq
      have hq2 : q.coin ∈ (ideaCard title coins action).rows.map (fun r => r.coin) :=
        List.mem_map_of_mem _ hq
      rwa [ideaCard_coins] at hq2
    subst hi
    have hrm := hrows _ _ _ r hr
    constructor
    · intro r2 hr2 e
      exact (hd r.coin hrm).1 (e ▸ hrows _ _ _ r2 hr2)
    · intro r2 hr2 e
      exact (hd r.coin hrm).2 (e ▸ hrows _ _ _ r2 hr2)
  · intro hn x hx y hy e
    have hxm := (mem_momentum toLowerCase m bt x hx).1
    have hym : y ∈ m := by
      rcases hy with hy | hy
      · exact (mem_dip toLowerCase m bt y hy).1
      · exact (mem_reversal toLowerCase m bt y hy).1
    have hxy : x = y := List.inj_on_of_nodup_map hn hxm hym e
    subst hxy
    rcases hy with hy | hy
    · exact (hd x hx).1 hy
    · exact (hd x hx).2 hy

theorem momentum_disjoint_witness :
    (coinIdea "BTC" (some 0.5) (some 6) (some 12)).id
      ≠ (coinIdea "ETH" none (some (-8)) (some (-1))).id :=
  (momentum_disjoint asciiLower [coinIdea "BTC" (some 0.5) (some 6) (some 12),
      coinIdea "ETH" none (some (-8)) (some (-1))] (some ["btc", "eth"])).2.2
    (by decide) (coinIdea "BTC" (some 0.5) (some 6) (some 12)) (by decide!)
    (coinIdea "ETH" none (some (-8)) (some (-1))) (Or.inl (by decide!))

/-! ## Fiat code of the snapshot -/

theorem loadAll_cases (toLowerCase : String → String) (net : Network) (w : World) :
    (primaryOk net = false ∧ ∃ e, loadAll toLowerCase net w = (Except.error e, loadAllStart w))
    ∨ (primaryOk net = true ∧ ∃ g m t, loadAll toLowerCase net w
        = (Except.ok (), loadAllCommit toLowerCase net (loadAllStart w) g m t)) := by
  unfold loadAll primaryOk
  rcases net.global with g | eg
  · rcases net.markets with m | em
    · rcases net.trending with t | et
      · exact Or.inr ⟨rfl, g, m, t, rfl⟩
      · exact Or.inl ⟨rfl, et, rfl⟩
    · exact Or.inl ⟨rfl, em, rfl⟩
  · exact Or.inl ⟨rfl, eg, rfl⟩

theorem getBinanceSymbols_vs (toLowerCase : String → String) (net : Network) (w : World) :
    (getBinanceSymbols toLowerCase net w).state.vs = w.state.vs := by
  unfold getBinanceSymbols
  cases w.state.binanceTradable with
  | some _ => rfl
  | none =>
    dsimp only
    rcases net.exchangeInfo with b | e
    · cases b <;> rfl
    · rfl

theorem loadAllCommit_vs (toLowerCase : String → String) (net : Network) (w1 : World)
    (g : GlobalDoc) (m : List Coin) (t : TrendingDoc) :
    (loadAllCommit toLowerCase net w1 g m t).state.vs = w1.state.vs := by
  rw [loadAllCommit_state, getBinanceSymbols_vs]

theorem toggleFavorite_state (id : String) (w : World) :
    (toggleFavorite id w).state = w.state := by
  unfold toggleFavorite
  show (renderFavorites _).state = _
  rw [renderFavorites_state]

theorem searchInput_state (toLowerCase trim : String → String) (value : String)
    (w : World) :
    (searchInput toLowerCase trim value w).state.vs = w.state.vs
      ∧ (searchInput toLowerCase trim value w).state.markets = w.state.markets := by
  unfold searchInput
  rw [renderFavorites_state]
  exact ⟨rfl, rfl⟩

theorem fiatConsistent_iff (m : Machine) :
    fiatConsistent m ↔ (m.marketsFiat = none ∧ m.world.state.markets = [])
      ∨ m.marketsFiat = some m.world.state.vs := by
  unfold fiatConsistent
  cases h : m.marketsFiat with
  | none => simp
  | some c =>
    simp only [Option.some.injEq, false_and, false_or, reduceCtorEq]
    exact eq_comm

/-- Every step other than a fiat change whose re-fetch fails keeps the fiat code
`state.vs` equal to the one `state.markets` was fetched for. -/
theorem step_fiatConsistent (toLowerCase trim : String → String) (m : Machine) (ev : Event)
    (hi : fiatConsistent m) (hok : refetchOk ev = true) :
    fiatConsistent (step toLowerCase trim m ev) := by
  rw [fiatConsistent_iff] at hi ⊢
  cases ev with
  | fiat value net =>
    have hp : primaryOk net = true := hok
    right
    rcases loadAll_cases toLowerCase net
      { m.world with state := { m.world.state with vs := value } } with ⟨hf, _⟩ | ⟨_, g, c, t, hl⟩
    · rw [hp] at hf
      cases hf
    · simp only [step, fiatChange, hl, fetchedFor, renderFavorites_state, loadAllCommit_vs]
      rfl
  | refresh net =>
    rcases loadAll_cases toLowerCase net m.world with ⟨_, e, hl⟩ | ⟨_, g, c, t, hl⟩
    · simp only [step, refreshClick, hl, fetchedFor]
      exact hi
    · right
      simp only [step, refreshClick, hl, fetchedFor, renderFavorites_state, loadAllCommit_vs]
      rfl
  | search value =>
    simp only [step, (searchInput_state toLowerCase trim value m.world).1,
      (searchInput_state toLowerCase trim value m.world).2]
    exact hi
  | toggle id =>
    simp only [step, toggleFavorite_state]
    exact hi

/-- From the page at load, every sequence of events without a fiat change whose re-fetch
fails ends with `state.vs` equal to the fiat code `state.markets` was fetched for. -/
theorem run_fiatConsistent (toLowerCase trim : String → String) (events : List Event)
    (hok : ∀ ev ∈ events, refetchOk ev = true) :
    fiatConsistent (run toLowerCase trim initMachine events) := by
  have hgen : ∀ (evs : List Event) (m : Machine), fiatConsistent m →
      (∀ ev ∈ evs, refetchOk ev = true) →
      fiatConsistent (run toLowerCase trim m evs) := by
    intro evs
    induction evs with
    | nil => intro m hm _; exact hm
    | cons ev rest ih =>
      intro m hm h
      exact ih (step toLowerCase trim m ev)
        (step_fiatConsistent toLowerCase trim m ev hm (h ev (List.mem_cons_self _ _)))
        (fun e he => h e (List.mem_cons_of_mem _ he))
  exact hgen events initMachine (by decide) hok

/-- C13 (defect): after a successful refresh in `usd`, a fiat change to `eur` whose
re-fetch fails leaves `state.vs = "eur"` while `state.markets` is still the list fetched
for `usd`, so the state is not fiat-consistent; the next click on a star, or the next
input in the search box, renders the movers, holding the `usd` prices, with the `eur`
formatter. -/
theorem fiat_change_failed_inconsistent :
    (run asciiLower trimBlanks initMachine
        [Event.refresh netOk, Event.fiat "eur" netGlobalFails]).world.state.vs = "eur"
    ∧ (run asciiLower trimBlanks initMachine
        [Event.refresh netOk, Event.fiat "eur" netGlobalFails]).marketsFiat = some "usd"
    ∧ (run asciiLower trimBlanks initMachine
        [Event.refresh netOk, Event.fiat "eur" netGlobalFails]).world.state.markets
        = [coin24 "a" (some 1), coin24 "b" (some (-1))]
    ∧ ¬ fiatConsistent (run asciiLower trimBlanks initMachine
        [Event.refresh netOk, Event.fiat "eur" netGlobalFails])
    ∧ (run asciiLower trimBlanks initMachine
        [Event.refresh netOk, Event.fiat "eur" netGlobalFails,
          Event.toggle "a"]).world.els.movers
        = some (MoversHtml.lists "eur"
            [{ star := true, coin := coin24 "a" (some 1) },
              { star := false, coin := coin24 "b" (some (-1)) }]
            [{ star := false, coin := coin24 "b" (some (-1)) },
              { star := true, coin := coin24 "a" (some 1) }])
    ∧ (run asciiLower trimBlanks initMachine
        [Event.refresh netOk, Event.fiat "eur" netGlobalFails,
          Event.search " A "]).world.els.movers
        = some (MoversHtml.lists "eur"
            [{ star := false, coin := coin24 "a" (some 1) }]
            [{ star := false, coin := coin24 "a" (some 1) }]) := by
  decide!

end FhatalX
